import Mathlib

/-!
# Pinos link object (`pinos/server/link.c`)

A shallow embedding of the link object of the Pinos daemon.  The functions of
`link.c` are transcribed statement by statement as state-passing functions over
a record `Sys` holding the link's private structure, the state of everything
outside `link.c` (ports, daemon) and the list of outward calls made so far.

The functions of `port.c`, of the daemon and of GObject that `link.c` calls are
defined outside `link.c`.  They are taken as a parameter `PortOps`; every
outward call is appended to `Sys.calls`, so that what the link calls, on which
port and in which order, can be stated whatever those functions do.  `SpecWorld`
and `specOps` give one concrete instance of the parameter, written from the
specification's description of a port.

Reference counting (`g_object_ref`, `g_bytes_unref`, `g_free`) and `g_debug`
logging are not modelled.

`g_signal_emit` is synchronous: a port that raises `activate` or `deactivate`
inside `pinos_port_activate` or `pinos_port_deactivate` runs the link's handler
before the port call returns.  `on_activate_sync`, `on_deactivate_sync` and
`pinos_link_dispose_sync` embed the handlers and the disposal with that
delivery.  `on_activate`, `on_deactivate` and `pinos_link_dispose` are the same
bodies with a port call that delivers nothing.  The two handlers give the
link's private structure after the handler in every case, and the calls and
port state when the ports raise nothing; the disposal is the same under
delivery to `on_deactivate`.
-/

namespace Pinos

/-! ## Values -/

/-- Identity of a non-NULL `PinosPort *`. A possibly-NULL pointer is an `Option PortRef`. -/
abbrev PortRef := Nat

/-- Identity of a non-NULL `PinosDaemon *`. -/
abbrev DaemonRef := Nat

/-- Contents of a `GBytes *` blob. A possibly-NULL blob is an `Option GBytes`. -/
abbrev GBytes := List Nat

/-- Identity of a `PinosBuffer *`. -/
abbrev PinosBuffer := Nat

/-- Contents of a `GError` stored through a `GError **`. -/
abbrev GError := Nat

/-- The object path handed out by the daemon, identified by the unique suffix the daemon
chose below `PINOS_DBUS_OBJECT_LINK`. -/
abbrev ObjectPath := Nat

/-- Modelled from the spec: the `PinosDirection` enumeration, declared in a header that is
not among the sources; the specification gives a port `direction ∈ {Input, Output}`. -/
inductive PinosDirection where
  | PINOS_DIRECTION_INPUT
  | PINOS_DIRECTION_OUTPUT
  deriving DecidableEq, Repr

/-- The two send-buffer callbacks defined in `link.c`. -/
inductive SendBufferCb where
  | on_output_send
  | on_input_send
  deriving DecidableEq, Repr

/-- The two signal handlers defined in `link.c`. -/
inductive SignalHandler where
  | on_activate
  | on_deactivate
  deriving DecidableEq, Repr

/-- The port signals `link.c` connects to. -/
inductive PortSignal where
  | activate
  | deactivate
  deriving DecidableEq, Repr

/-- The port properties `link.c` reads and writes with `g_object_get` / `g_object_set`. -/
inductive PortProperty where
  | possible_formats
  | format
  deriving DecidableEq, Repr

/-- The `PinosLink1` D-Bus interface skeleton created by `pinos_link1_skeleton_new`. -/
inductive PinosLink1 where
  | skeleton
  deriving DecidableEq, Repr

/-- Property identifiers of the link: the anonymous `enum` starting with `PROP_0`. -/
inductive PropId where
  | PROP_0
  | PROP_DAEMON
  | PROP_OUTPUT
  | PROP_INPUT
  | PROP_OBJECT_PATH
  | PROP_POSSIBLE_FORMATS
  | PROP_FORMAT
  deriving DecidableEq, Repr

/-- Signals of the link: `SIGNAL_REMOVE` is the only one. -/
inductive LinkSignal where
  | SIGNAL_REMOVE
  deriving DecidableEq, Repr

/-- A `GValue` as the property accessors of `link.c` use it. -/
inductive GValue where
  | object (o : Option Nat)
  | string (s : Option ObjectPath)
  | boxed (b : Option GBytes)
  deriving DecidableEq, Repr

/-- Reading an object pointer out of a value: `g_value_dup_object`. -/
def g_value_dup_object : GValue → Option Nat
  | .object o => o
  | _ => none

/-- Reading a string out of a value: `g_value_dup_string`. -/
def g_value_dup_string : GValue → Option ObjectPath
  | .string s => s
  | _ => none

/-- Reading a boxed `GBytes` out of a value: `g_value_dup_boxed`. -/
def g_value_dup_boxed : GValue → Option GBytes
  | .boxed b => b
  | _ => none

/-- One outward call made by `link.c`, with its arguments (and the identifier
returned, for a callback registration). -/
inductive Call where
  | port_receive_buffer (port : Option PortRef) (buffer : PinosBuffer)
  | port_add_send_buffer_cb (port : Option PortRef) (cb : SendBufferCb) (id : Nat)
  | port_remove_send_buffer_cb (port : Option PortRef) (id : Nat)
  | port_activate (port : Option PortRef)
  | port_deactivate (port : Option PortRef)
  | port_get (port : Option PortRef) (prop : PortProperty)
  | port_set (port : Option PortRef) (prop : PortProperty) (value : Option GBytes)
  | signal_connect (port : Option PortRef) (sig : PortSignal) (handler : SignalHandler)
  | daemon_export_uniquely (daemon : Option DaemonRef) (path : ObjectPath)
  | daemon_unexport (daemon : Option DaemonRef) (path : Option ObjectPath)
  | clear_object (port : Option PortRef)
  | signal_emit (sig : LinkSignal)
  deriving DecidableEq, Repr

/-! ## The link's private structure -/

/-- The private structure of a link: `struct _PinosLinkPrivate`. -/
structure PinosLinkPrivate where
  daemon : Option DaemonRef
  iface : Option PinosLink1
  object_path : Option ObjectPath
  input_id : Nat
  output_id : Nat
  active : Bool
  output : Option PortRef
  input : Option PortRef
  possible_formats : Option GBytes
  format : Option GBytes
  deriving DecidableEq, Repr

/-- The functions outside `link.c` that the link calls, over a state `W` of the ports and
the daemon. Each takes the state before the call and gives the state after it, together
with what the C function returns. -/
structure PortOps (W : Type) where
  /-- Result of `pinos_port_get_direction`. -/
  get_direction : W → Option PortRef → PinosDirection
  /-- Result of `pinos_port_receive_buffer`: the `gboolean` and what it stored in `*error`. -/
  receive_buffer : W → Option PortRef → PinosBuffer → (Bool × Option GError) × W
  /-- Result of `pinos_port_add_send_buffer_cb`: the callback identifier. -/
  add_send_buffer_cb : W → Option PortRef → SendBufferCb → Nat × W
  /-- Effect of `pinos_port_remove_send_buffer_cb`. -/
  remove_send_buffer_cb : W → Option PortRef → Nat → W
  /-- Effect of `pinos_port_activate`. -/
  activate : W → Option PortRef → W
  /-- Effect of `pinos_port_deactivate`. -/
  deactivate : W → Option PortRef → W
  /-- Result of `g_object_get` of a port property. -/
  get_property : W → Option PortRef → PortProperty → Option GBytes
  /-- Effect of `g_object_set` of a port property. -/
  set_property : W → Option PortRef → PortProperty → Option GBytes → W
  /-- Effect of `g_signal_connect` on a port. -/
  signal_connect : W → Option PortRef → PortSignal → SignalHandler → W
  /-- Result of `pinos_daemon_export_uniquely`: the object path. -/
  export_uniquely : W → Option DaemonRef → ObjectPath × W
  /-- Effect of `pinos_daemon_unexport`. -/
  unexport : W → Option DaemonRef → Option ObjectPath → W

/-- The link, the state outside it, and the outward calls made so far (oldest first). -/
structure Sys (W : Type) where
  priv : PinosLinkPrivate
  world : W
  calls : List Call
  deriving DecidableEq

section Link

variable {W : Type} (ops : PortOps W)

/-! ## Outward calls, each recorded in `Sys.calls` -/

/-- Call of `pinos_port_receive_buffer (port, buffer, error)`. -/
def pinos_port_receive_buffer (port : Option PortRef) (buffer : PinosBuffer) (s : Sys W) :
    (Bool × Option GError) × Sys W :=
  let r := ops.receive_buffer s.world port buffer
  (r.1, { s with world := r.2, calls := s.calls ++ [Call.port_receive_buffer port buffer] })

/-- Call of `pinos_port_add_send_buffer_cb (port, cb, link, NULL)`. -/
def pinos_port_add_send_buffer_cb (port : Option PortRef) (cb : SendBufferCb) (s : Sys W) :
    Nat × Sys W :=
  let r := ops.add_send_buffer_cb s.world port cb
  (r.1, { s with world := r.2, calls := s.calls ++ [Call.port_add_send_buffer_cb port cb r.1] })

/-- Call of `pinos_port_remove_send_buffer_cb (port, id)`. -/
def pinos_port_remove_send_buffer_cb (port : Option PortRef) (id : Nat) (s : Sys W) : Sys W :=
  { s with world := ops.remove_send_buffer_cb s.world port id,
           calls := s.calls ++ [Call.port_remove_send_buffer_cb port id] }

/-- Call of `pinos_port_activate (port)`. -/
def pinos_port_activate (port : Option PortRef) (s : Sys W) : Sys W :=
  { s with world := ops.activate s.world port, calls := s.calls ++ [Call.port_activate port] }

/-- Call of `pinos_port_deactivate (port)`. -/
def pinos_port_deactivate (port : Option PortRef) (s : Sys W) : Sys W :=
  { s with world := ops.deactivate s.world port, calls := s.calls ++ [Call.port_deactivate port] }

/-- Call of `g_object_get (port, prop, &formats, NULL)`. -/
def g_object_get (port : Option PortRef) (prop : PortProperty) (s : Sys W) :
    Option GBytes × Sys W :=
  (ops.get_property s.world port prop, { s with calls := s.calls ++ [Call.port_get port prop] })

/-- Call of `g_object_set (port, prop, formats, NULL)`. -/
def g_object_set (port : Option PortRef) (prop : PortProperty) (value : Option GBytes)
    (s : Sys W) : Sys W :=
  { s with world := ops.set_property s.world port prop value,
           calls := s.calls ++ [Call.port_set port prop value] }

/-- Call of `g_signal_connect (port, sig, handler, link)`. -/
def g_signal_connect (port : Option PortRef) (sig : PortSignal) (handler : SignalHandler)
    (s : Sys W) : Sys W :=
  { s with world := ops.signal_connect s.world port sig handler,
           calls := s.calls ++ [Call.signal_connect port sig handler] }

/-- Call of `pinos_daemon_export_uniquely (daemon, skel)`. -/
def pinos_daemon_export_uniquely (daemon : Option DaemonRef) (s : Sys W) : ObjectPath × Sys W :=
  let r := ops.export_uniquely s.world daemon
  (r.1, { s with world := r.2, calls := s.calls ++ [Call.daemon_export_uniquely daemon r.1] })

/-- Call of `pinos_daemon_unexport (daemon, object_path)`. -/
def pinos_daemon_unexport (daemon : Option DaemonRef) (path : Option ObjectPath) (s : Sys W) :
    Sys W :=
  { s with world := ops.unexport s.world daemon path,
           calls := s.calls ++ [Call.daemon_unexport daemon path] }

/-- Call of `g_signal_emit (link, signals[sig], 0, NULL)`. -/
def g_signal_emit (sig : LinkSignal) (s : Sys W) : Sys W :=
  { s with calls := s.calls ++ [Call.signal_emit sig] }

/-! ## The functions of `link.c` -/

/-- The send-buffer callback registered on the output port: `on_output_send`. -/
def on_output_send (_port : Option PortRef) (buffer : PinosBuffer) (s : Sys W) :
    (Bool × Option GError) × Sys W :=
  pinos_port_receive_buffer ops s.priv.input buffer s

/-- The send-buffer callback registered on the input port: `on_input_send`. -/
def on_input_send (_port : Option PortRef) (buffer : PinosBuffer) (s : Sys W) :
    (Bool × Option GError) × Sys W :=
  pinos_port_receive_buffer ops s.priv.output buffer s

/-- Property setter of the link: `pinos_link_set_property`. An identifier outside the
`switch` only warns. -/
def pinos_link_set_property (priv : PinosLinkPrivate) (prop_id : PropId) (value : GValue) :
    PinosLinkPrivate :=
  match prop_id with
  | .PROP_DAEMON => { priv with daemon := g_value_dup_object value }
  | .PROP_OUTPUT => { priv with output := g_value_dup_object value }
  | .PROP_INPUT => { priv with input := g_value_dup_object value }
  | .PROP_OBJECT_PATH => { priv with object_path := g_value_dup_string value }
  | .PROP_POSSIBLE_FORMATS => { priv with possible_formats := g_value_dup_boxed value }
  | .PROP_FORMAT => { priv with format := g_value_dup_boxed value }
  | .PROP_0 => priv

/-- Property getter of the link: `pinos_link_get_property`. An identifier outside the
`switch` only warns and leaves the value unset. -/
def pinos_link_get_property (priv : PinosLinkPrivate) (prop_id : PropId) : Option GValue :=
  match prop_id with
  | .PROP_DAEMON => some (.object priv.daemon)
  | .PROP_OUTPUT => some (.object priv.output)
  | .PROP_INPUT => some (.object priv.input)
  | .PROP_OBJECT_PATH => some (.string priv.object_path)
  | .PROP_POSSIBLE_FORMATS => some (.boxed priv.possible_formats)
  | .PROP_FORMAT => some (.boxed priv.format)
  | .PROP_0 => none

/-- Export of the link on the bus: `link_register_object`. -/
def link_register_object (s : Sys W) : Sys W :=
  let r := pinos_daemon_export_uniquely ops s.priv.daemon s
  { r.2 with priv := { r.2.priv with object_path := some r.1 } }

/-- Withdrawal of the link from the bus: `link_unregister_object`. -/
def link_unregister_object (s : Sys W) : Sys W :=
  pinos_daemon_unexport ops s.priv.daemon s.priv.object_path s

/-- Handler of a port's `activate` signal, `on_activate`, with `pinos_port_activate` taken
as a call that delivers nothing back to the link. The link's private structure after it
is the one after the handler under any delivery; the calls and the state of the ports
under synchronous delivery are those of `on_activate_sync`. -/
def on_activate (port : Option PortRef) (s : Sys W) : Bool × Sys W :=
  if s.priv.active then
    (true, s)
  else
    let s1 :=
      if s.priv.input = port then pinos_port_activate ops s.priv.output s
      else pinos_port_activate ops s.priv.input s
    (true, { s1 with priv := { s1.priv with active := true } })

/-- Handler of a port's `deactivate` signal, `on_deactivate`, with `pinos_port_deactivate`
taken as a call that delivers nothing back to the link. The link's private structure
after it is the one after the handler under any delivery; the calls and the state of the
ports under synchronous delivery are those of `on_deactivate_sync`. -/
def on_deactivate (port : Option PortRef) (s : Sys W) : Bool × Sys W :=
  if !s.priv.active then
    (true, s)
  else
    let s1 :=
      if s.priv.input = port then pinos_port_deactivate ops s.priv.output s
      else pinos_port_deactivate ops s.priv.input s
    (true, { s1 with priv := { s1.priv with active := false } })

/-- The `constructed` method: `pinos_link_constructed`. The parent class's `constructed`
is GObject's, which does nothing. -/
def pinos_link_constructed (s : Sys W) : Sys W :=
  let r1 := pinos_port_add_send_buffer_cb ops s.priv.output .on_output_send s
  let s1 : Sys W := { r1.2 with priv := { r1.2.priv with output_id := r1.1 } }
  let r2 := pinos_port_add_send_buffer_cb ops s1.priv.input .on_input_send s1
  let s2 : Sys W := { r2.2 with priv := { r2.2.priv with input_id := r2.1 } }
  let g1 := g_object_get ops s2.priv.input .possible_formats s2
  let s3 := g_object_set ops g1.2.priv.output .possible_formats g1.1 g1.2
  let g2 := g_object_get ops s3.priv.output .format s3
  let s4 := g_object_set ops g2.2.priv.input .format g2.1 g2.2
  let s5 := g_signal_connect ops s4.priv.input .activate .on_activate s4
  let s6 := g_signal_connect ops s5.priv.input .deactivate .on_deactivate s5
  let s7 := g_signal_connect ops s6.priv.output .activate .on_activate s6
  let s8 := g_signal_connect ops s7.priv.output .deactivate .on_deactivate s7
  link_register_object ops s8

/-- Release of a port reference: `g_clear_object (&priv->input)` or `(&priv->output)`;
the caller stores NULL in the field. -/
def g_clear_object (port : Option PortRef) (s : Sys W) : Sys W :=
  { s with calls := s.calls ++ [Call.clear_object port] }

/-- The `dispose` method: `pinos_link_dispose`. The parent class's `dispose` is GObject's. -/
def pinos_link_dispose (s : Sys W) : Sys W :=
  let s1 := pinos_port_remove_send_buffer_cb ops s.priv.input s.priv.input_id s
  let s2 := pinos_port_remove_send_buffer_cb ops s1.priv.output s1.priv.output_id s1
  let s3 :=
    if s2.priv.active then
      let a : Sys W := { s2 with priv := { s2.priv with active := false } }
      let b := pinos_port_deactivate ops a.priv.input a
      pinos_port_deactivate ops b.priv.output b
    else s2
  let s4 := g_clear_object s3.priv.input s3
  let s5 : Sys W := { s4 with priv := { s4.priv with input := none } }
  let s6 := g_clear_object s5.priv.output s5
  let s7 : Sys W := { s6 with priv := { s6.priv with output := none } }
  link_unregister_object ops s7

/-- The `finalize` method: `pinos_link_finalize`. `g_clear_pointer` and `g_clear_object`
store NULL in the field; `g_free (priv->object_path)` leaves the pointer in place. -/
def pinos_link_finalize (s : Sys W) : Sys W :=
  { s with priv := { s.priv with possible_formats := none, format := none, daemon := none,
                                 iface := none } }

/-- Instance initialiser: `pinos_link_init`, on the zero-filled private structure. -/
def pinos_link_init : PinosLinkPrivate :=
  { daemon := none, iface := some .skeleton, object_path := none, input_id := 0,
    output_id := 0, active := false, output := none, input := none,
    possible_formats := none, format := none }

/-- Construction through `g_object_new (PINOS_TYPE_LINK, "daemon", …, "output", …, "input", …,
"possible-formats", …, NULL)`: instance initialisation, then every construct
property is set (`format`, not passed, gets its default NULL), then `constructed` runs. -/
def g_object_new (w : W) (daemon : Option DaemonRef) (output input : Option PortRef)
    (possible_formats : Option GBytes) : Sys W :=
  let p0 := pinos_link_init
  let p1 := pinos_link_set_property p0 .PROP_DAEMON (.object daemon)
  let p2 := pinos_link_set_property p1 .PROP_OUTPUT (.object output)
  let p3 := pinos_link_set_property p2 .PROP_INPUT (.object input)
  let p4 := pinos_link_set_property p3 .PROP_POSSIBLE_FORMATS (.boxed possible_formats)
  let p5 := pinos_link_set_property p4 .PROP_FORMAT (.boxed none)
  pinos_link_constructed ops { priv := p5, world := w, calls := [] }

/-- Creation of a link: `pinos_link_new`. The result is the `PinosLink *` it returns
(`none` would be NULL), with the state and calls after the call. -/
def pinos_link_new (w : W) (daemon : Option DaemonRef) (output input : Option PortRef)
    (format_filter : Option GBytes) : Option (Sys W) :=
  if ops.get_direction w output ≠ PinosDirection.PINOS_DIRECTION_OUTPUT then
    some (g_object_new ops w daemon input output format_filter)
  else
    some (g_object_new ops w daemon output input format_filter)

/-- Trigger of removal: `pinos_link_remove`. A NULL link fails `g_return_if_fail`. -/
def pinos_link_remove (link : Option (Sys W)) : Option (Sys W) :=
  match link with
  | none => none
  | some s => some (g_signal_emit .SIGNAL_REMOVE s)

end Link

/-- Accessor `pinos_link_get_object_path`; NULL for a NULL link. -/
def pinos_link_get_object_path (link : Option PinosLinkPrivate) : Option ObjectPath :=
  match link with
  | none => none
  | some priv => priv.object_path

/-- Accessor `pinos_link_get_possible_formats`; NULL for a NULL link. -/
def pinos_link_get_possible_formats (link : Option PinosLinkPrivate) : Option GBytes :=
  match link with
  | none => none
  | some priv => priv.possible_formats

/-- Accessor `pinos_link_get_format`; NULL for a NULL link. -/
def pinos_link_get_format (link : Option PinosLinkPrivate) : Option GBytes :=
  match link with
  | none => none
  | some priv => priv.format


/-! ## Events on a constructed link -/

/-- What can happen to a link between construction and disposal: one of its ports raises
`activate` or `deactivate` (delivered to the handler connected in
`pinos_link_constructed`), or a property of the link is written. -/
inductive LinkEvent where
  | activate (port : Option PortRef)
  | deactivate (port : Option PortRef)
  | set_property (prop_id : PropId) (value : GValue)
  deriving DecidableEq, Repr

/-- Handling of one event by the link, with port calls that deliver nothing back; it
follows the link's private structure through the events. -/
def LinkEvent.handle {W : Type} (ops : PortOps W) (e : LinkEvent) (s : Sys W) : Sys W :=
  match e with
  | .activate port => (on_activate ops port s).2
  | .deactivate port => (on_deactivate ops port s).2
  | .set_property prop_id value => { s with priv := pinos_link_set_property s.priv prop_id value }

/-- Handling of a sequence of events, oldest first. -/
def run {W : Type} (ops : PortOps W) (evs : List LinkEvent) (s : Sys W) : Sys W :=
  evs.foldl (fun acc e => e.handle ops acc) s

/-- Whether the event writes the link's `format` property. -/
def LinkEvent.writesFormat : LinkEvent → Bool
  | .set_property .PROP_FORMAT _ => true
  | _ => false

/-- The activate/deactivate event handled last decides: `true` after an `activate`,
`false` after a `deactivate`, `init` when there was neither. -/
def lastActivation (init : Bool) (evs : List LinkEvent) : Bool :=
  evs.foldl (fun acc e =>
    match e with
    | .activate _ => true
    | .deactivate _ => false
    | .set_property _ _ => acc) init

/-- The value stored by the last write of the `format` property, `init` when there
was none. -/
def lastFormatWrite (init : Option GBytes) (evs : List LinkEvent) : Option GBytes :=
  evs.foldl (fun acc e =>
    match e with
    | .set_property .PROP_FORMAT value => g_value_dup_boxed value
    | _ => acc) init

/-! ## A concrete world, from the specification's description of a port -/

/-- Modelled from the spec: the state of a port, `state ∈ {Idle, Configured, Active}`;
`port.c` is not among the sources. -/
inductive PortState where
  | Idle
  | Configured
  | Active
  deriving DecidableEq, Repr

/-- Modelled from the spec: a port (`port.c` and `port.h` are not among the sources) with
its direction, its possible formats, its chosen format, its ordered list of send-buffer
callbacks with their identifiers, its state, the handlers connected to its signals and the
buffers it received. -/
structure PinosPort where
  direction : PinosDirection
  possible_formats : Option GBytes
  format : Option GBytes
  send_buffer_cbs : List (Nat × SendBufferCb)
  next_cb_id : Nat
  state : PortState
  handlers : List (PortSignal × SignalHandler)
  received : List PinosBuffer
  deriving DecidableEq, Repr

/-- Modelled from the spec: the ports of the daemon, addressed by position, and the
object paths the daemon has exported. -/
structure SpecWorld where
  ports : List PinosPort
  exported : List ObjectPath
  next_path : Nat
  deriving DecidableEq, Repr

/-- The port a pointer designates, if any. -/
def SpecWorld.port (w : SpecWorld) (p : Option PortRef) : Option PinosPort :=
  match p with
  | none => none
  | some r => w.ports.get? r

/-- Update of the port a pointer designates; a NULL or dangling pointer changes nothing. -/
def SpecWorld.update (w : SpecWorld) (p : Option PortRef) (f : PinosPort → PinosPort) :
    SpecWorld :=
  match p with
  | none => w
  | some r => { w with ports := w.ports.modify f r }

/-- Modelled from the spec: `activate()` transitions Configured→Active and is idempotent
when already Active. -/
def PinosPort.activate (p : PinosPort) : PinosPort :=
  match p.state with
  | .Configured => { p with state := .Active }
  | _ => p

/-- Modelled from the spec: `deactivate()` is symmetric to `activate()` and idempotent. -/
def PinosPort.deactivate (p : PinosPort) : PinosPort :=
  match p.state with
  | .Active => { p with state := .Configured }
  | _ => p

/-- Modelled from the spec: `add_send_buffer_cb(fn, user) → CallbackId` appends to the
ordered callback list under a fresh identifier. -/
def PinosPort.add_send_buffer_cb (p : PinosPort) (cb : SendBufferCb) : PinosPort :=
  { p with send_buffer_cbs := p.send_buffer_cbs ++ [(p.next_cb_id, cb)],
           next_cb_id := p.next_cb_id + 1 }

/-- Modelled from the spec: removal of a send-buffer callback by identifier. -/
def PinosPort.remove_send_buffer_cb (p : PinosPort) (id : Nat) : PinosPort :=
  { p with send_buffer_cbs := p.send_buffer_cbs.filter (fun c => c.1 != id) }

/-- Modelled from the spec: the observable properties `possible_formats` and `format`. -/
def PinosPort.get (p : PinosPort) : PortProperty → Option GBytes
  | .possible_formats => p.possible_formats
  | .format => p.format

/-- Modelled from the spec: writing an observable property of a port. -/
def PinosPort.set (p : PinosPort) (prop : PortProperty) (v : Option GBytes) : PinosPort :=
  match prop with
  | .possible_formats => { p with possible_formats := v }
  | .format => { p with format := v }

/-- Modelled from the spec: the port and daemon functions `link.c` calls, over `SpecWorld`.
A NULL or dangling port pointer makes a call do nothing; it has no callback identifier
(0), is not an output, and refuses buffers. -/
def specOps : PortOps SpecWorld where
  get_direction w p :=
    match w.port p with
    | some port => port.direction
    | none => .PINOS_DIRECTION_INPUT
  receive_buffer w p buffer :=
    match w.port p with
    | some _ => ((true, none), w.update p (fun port => { port with received := port.received ++ [buffer] }))
    | none => ((false, none), w)
  add_send_buffer_cb w p cb :=
    match w.port p with
    | some port => (port.next_cb_id, w.update p (fun q => q.add_send_buffer_cb cb))
    | none => (0, w)
  remove_send_buffer_cb w p id := w.update p (fun q => q.remove_send_buffer_cb id)
  activate w p := w.update p PinosPort.activate
  deactivate w p := w.update p PinosPort.deactivate
  get_property w p prop :=
    match w.port p with
    | some port => port.get prop
    | none => none
  set_property w p prop v := w.update p (fun q => q.set prop v)
  signal_connect w p sig handler :=
    w.update p (fun q => { q with handlers := q.handlers ++ [(sig, handler)] })
  export_uniquely w _daemon :=
    (w.next_path, { w with exported := w.exported ++ [w.next_path], next_path := w.next_path + 1 })
  unexport w _daemon path :=
    match path with
    | some n => { w with exported := w.exported.filter (fun x => x != n) }
    | none => w

/-- Modelled from the spec: the intersection of two capability sets (the format
negotiator is not among the sources); a blob lists the identifiers of its formats and a
NULL blob holds none. -/
def formats_intersect (a b : Option GBytes) : GBytes :=
  match a, b with
  | some x, some y => x.filter (fun fmt => y.contains fmt)
  | _, _ => []

/-- A fresh port of the given direction and possible formats: no format chosen, no
callbacks, not yet configured. -/
def freshPort (d : PinosDirection) (formats : Option GBytes) : PinosPort :=
  { direction := d, possible_formats := formats, format := none, send_buffer_cbs := [],
    next_cb_id := 1, state := .Idle, handlers := [], received := [] }

/-- A world holding the given ports and nothing exported. -/
def worldOf (ports : List PinosPort) : SpecWorld :=
  { ports := ports, exported := [], next_path := 0 }

/-- An output port offering formats `{1, 2}` and an input port accepting `{2, 3}`. -/
def worldOutIn : SpecWorld :=
  worldOf [freshPort .PINOS_DIRECTION_OUTPUT (some [1, 2]),
           freshPort .PINOS_DIRECTION_INPUT (some [2, 3])]

/-- Two input ports. -/
def worldTwoInputs : SpecWorld :=
  worldOf [freshPort .PINOS_DIRECTION_INPUT (some [1]),
           freshPort .PINOS_DIRECTION_INPUT (some [1])]

/-- Two output ports. -/
def worldTwoOutputs : SpecWorld :=
  worldOf [freshPort .PINOS_DIRECTION_OUTPUT (some [1]),
           freshPort .PINOS_DIRECTION_OUTPUT (some [1])]

/-- The link created between the ports of `worldOutIn`, after its input port (port 1)
raised `activate`. -/
def activeLinkOutIn : Sys SpecWorld :=
  run specOps [.activate (some 1)]
    (g_object_new specOps worldOutIn (some 0) (some 0) (some 1) none)

/-- An output port that is configured and an input port that is already active, both
with the chosen format `{2}`. -/
def worldReady : SpecWorld :=
  worldOf [{ freshPort .PINOS_DIRECTION_OUTPUT (some [1, 2]) with
               format := some [2], state := .Configured },
           { freshPort .PINOS_DIRECTION_INPUT (some [2, 3]) with
               format := some [2], state := .Active }]

/-- The port and identifier of a callback registration, for a call that is one. -/
def Call.registers : Call → Option (Option PortRef × Nat)
  | .port_add_send_buffer_cb port _ id => some (port, id)
  | _ => none

/-- An output port offering only format `1` and an input port accepting only format `2`. -/
def worldIncompatible : SpecWorld :=
  worldOf [freshPort .PINOS_DIRECTION_OUTPUT (some [1]),
           freshPort .PINOS_DIRECTION_INPUT (some [2])]

/-- Modelled from the spec: whether a call of `pinos_port_activate` / `pinos_port_deactivate`
on a port, made in a given state, makes the port raise `activate` / `deactivate` before it
returns (`port.c` is not among the sources). -/
structure PortSignals (W : Type) where
  raises_activate : W → Option PortRef → Bool
  raises_deactivate : W → Option PortRef → Bool

/-- The handlers connected to a signal of a port, in connection order: the
`g_signal_connect` calls made so far. `link.c` never disconnects a handler. -/
def connected {W : Type} (s : Sys W) (port : Option PortRef) (sig : PortSignal) :
    List SignalHandler :=
  s.calls.filterMap (fun c =>
    match c with
    | .signal_connect p sg h => if p = port ∧ sg = sig then some h else none
    | _ => none)

mutual

/-- Call of `pinos_port_activate (port)` with synchronous delivery: the call is recorded and
takes effect, then, if the port raises `activate`, every connected handler runs with the
port as emitter. -/
def pinos_port_activate_sync {W : Type} (ops : PortOps W) (sg : PortSignals W) :
    Nat → Option PortRef → Sys W → Option (Sys W)
  | 0, _, _ => none
  | n + 1, port, s =>
    if sg.raises_activate s.world port then
      (connected s port .activate).foldlM
        (fun acc h => signal_handler_sync ops sg n h port acc) (pinos_port_activate ops port s)
    else some (pinos_port_activate ops port s)

/-- Call of `pinos_port_deactivate (port)` with synchronous delivery. -/
def pinos_port_deactivate_sync {W : Type} (ops : PortOps W) (sg : PortSignals W) :
    Nat → Option PortRef → Sys W → Option (Sys W)
  | 0, _, _ => none
  | n + 1, port, s =>
    if sg.raises_deactivate s.world port then
      (connected s port .deactivate).foldlM
        (fun acc h => signal_handler_sync ops sg n h port acc) (pinos_port_deactivate ops port s)
    else some (pinos_port_deactivate ops port s)

/-- Invocation of a connected handler by the signal emission; the handler's boolean is
dropped. -/
def signal_handler_sync {W : Type} (ops : PortOps W) (sg : PortSignals W) :
    Nat → SignalHandler → Option PortRef → Sys W → Option (Sys W)
  | 0, _, _, _ => none
  | n + 1, .on_activate, port, s => (on_activate_sync ops sg n port s).map (fun r => r.2)
  | n + 1, .on_deactivate, port, s => (on_deactivate_sync ops sg n port s).map (fun r => r.2)

/-- Handler `on_activate` with synchronous delivery inside `pinos_port_activate`. -/
def on_activate_sync {W : Type} (ops : PortOps W) (sg : PortSignals W) :
    Nat → Option PortRef → Sys W → Option (Bool × Sys W)
  | 0, _, _ => none
  | n + 1, port, s =>
    if s.priv.active then
      some (true, s)
    else
      (if s.priv.input = port then pinos_port_activate_sync ops sg n s.priv.output s
       else pinos_port_activate_sync ops sg n s.priv.input s).map
        (fun s1 => (true, { s1 with priv := { s1.priv with active := true } }))

/-- Handler `on_deactivate` with synchronous delivery inside `pinos_port_deactivate`. -/
def on_deactivate_sync {W : Type} (ops : PortOps W) (sg : PortSignals W) :
    Nat → Option PortRef → Sys W → Option (Bool × Sys W)
  | 0, _, _ => none
  | n + 1, port, s =>
    if !s.priv.active then
      some (true, s)
    else
      (if s.priv.input = port then pinos_port_deactivate_sync ops sg n s.priv.output s
       else pinos_port_deactivate_sync ops sg n s.priv.input s).map
        (fun s1 => (true, { s1 with priv := { s1.priv with active := false } }))

end

/-- The `dispose` method `pinos_link_dispose` with synchronous delivery inside the two
`pinos_port_deactivate` calls. -/
def pinos_link_dispose_sync {W : Type} (ops : PortOps W) (sg : PortSignals W) (fuel : Nat)
    (s : Sys W) : Option (Sys W) :=
  let s1 := pinos_port_remove_send_buffer_cb ops s.priv.input s.priv.input_id s
  let s2 := pinos_port_remove_send_buffer_cb ops s1.priv.output s1.priv.output_id s1
  let r3 : Option (Sys W) :=
    if s2.priv.active then
      let a : Sys W := { s2 with priv := { s2.priv with active := false } }
      (pinos_port_deactivate_sync ops sg fuel a.priv.input a).bind
        (fun b => pinos_port_deactivate_sync ops sg fuel b.priv.output b)
    else some s2
  r3.map (fun s3 =>
    let s4 := g_clear_object s3.priv.input s3
    let s5 : Sys W := { s4 with priv := { s4.priv with input := none } }
    let s6 := g_clear_object s5.priv.output s5
    let s7 : Sys W := { s6 with priv := { s6.priv with output := none } }
    link_unregister_object ops s7)

/-- Modelled from the spec: `activate()` transitions Configured→Active and emits the
`activate` event, and is idempotent when already Active; `deactivate()` is symmetric. A
port raises its signal exactly when the call makes the transition. -/
def specSignals : PortSignals SpecWorld where
  raises_activate w p :=
    match w.port p with
    | some port => port.state == .Configured
    | none => false
  raises_deactivate w p :=
    match w.port p with
    | some port => port.state == .Active
    | none => false

/-- The link created between the ports of `worldReady`: its output (port 0) is configured,
its input (port 1) is already active. -/
def readyLink : Sys SpecWorld :=
  g_object_new specOps worldReady (some 0) (some 0) (some 1) none

/-- The link of `readyLink` after its input port (port 1) raised `activate` and the
handler ran with synchronous delivery. -/
def activeReadyLink : Sys SpecWorld :=
  ((on_activate_sync specOps specSignals 5 (some 1) readyLink).map (fun r => r.2)).getD readyLink

/-- Whether every handler connected to a `deactivate` signal so far is `on_deactivate`,
as `pinos_link_constructed` connects them. -/
def deactivateHandlersAreOnDeactivate {W : Type} (s : Sys W) : Bool :=
  s.calls.all (fun c =>
    match c with
    | .signal_connect _ .deactivate h => decide (h = SignalHandler.on_deactivate)
    | _ => true)

/-- An output port with possible formats `{1, 2}` and chosen format `{5}`, and an input
port with possible formats `{2, 3}` and no chosen format. -/
def worldFormats : SpecWorld :=
  worldOf [{ freshPort .PINOS_DIRECTION_OUTPUT (some [1, 2]) with format := some [5] },
           freshPort .PINOS_DIRECTION_INPUT (some [2, 3])]


/-- The link's private structure with the active flag blanked: the fields that neither
handler writes. -/
def PinosLinkPrivate.exceptActive (p : PinosLinkPrivate) : PinosLinkPrivate :=
  { p with active := false }

/-- An output port that is already active and an input port that is configured, both with
the chosen format `{2}`. -/
def worldOutputActive : SpecWorld :=
  worldOf [{ freshPort .PINOS_DIRECTION_OUTPUT (some [1, 2]) with
               format := some [2], state := .Active },
           { freshPort .PINOS_DIRECTION_INPUT (some [2, 3]) with
               format := some [2], state := .Configured }]

/-- The link created between the ports of `worldOutputActive`. -/
def outputActiveLink : Sys SpecWorld :=
  g_object_new specOps worldOutputActive (some 0) (some 0) (some 1) none

/-- The active link `activeReadyLink` at the moment its input port (port 1) has left the
Active state and raises `deactivate`. -/
def activeReadyLinkInputDown : Sys SpecWorld :=
  { activeReadyLink with world := specOps.deactivate activeReadyLink.world (some 1) }

end Pinos

namespace Pinos

/-! ## Buffer relay -/

/-- C1: each relay callback forwards the buffer to the opposite port exactly once and
returns that call's result unchanged. `on_output_send` makes one outward call,
`pinos_port_receive_buffer` on the link's input port with the buffer it was given, and
returns the boolean and the error of that call; `on_input_send` does the same on the
link's output port. Neither touches the link's private structure. -/
theorem relay_forwards_once_and_returns_result {W : Type} (ops : PortOps W) (s : Sys W)
    (port : Option PortRef) (buffer : PinosBuffer) :
    ((on_output_send ops port buffer s).1 = (ops.receive_buffer s.world s.priv.input buffer).1 ∧
      (on_output_send ops port buffer s).2.calls
        = s.calls ++ [Call.port_receive_buffer s.priv.input buffer] ∧
      (on_output_send ops port buffer s).2.world
        = (ops.receive_buffer s.world s.priv.input buffer).2 ∧
      (on_output_send ops port buffer s).2.priv = s.priv) ∧
    ((on_input_send ops port buffer s).1 = (ops.receive_buffer s.world s.priv.output buffer).1 ∧
      (on_input_send ops port buffer s).2.calls
        = s.calls ++ [Call.port_receive_buffer s.priv.output buffer] ∧
      (on_input_send ops port buffer s).2.world
        = (ops.receive_buffer s.world s.priv.output buffer).2 ∧
      (on_input_send ops port buffer s).2.priv = s.priv) :=
  ⟨⟨rfl, rfl, rfl, rfl⟩, ⟨rfl, rfl, rfl, rfl⟩⟩

/-! ## Creation -/

/-- The link's fields right after `g_object_new`: the references and the filter are the
arguments, the format is NULL and the link is inactive. -/
theorem g_object_new_priv {W : Type} (ops : PortOps W) (w : W) (daemon : Option DaemonRef)
    (output input : Option PortRef) (f : Option GBytes) :
    (g_object_new ops w daemon output input f).priv.output = output ∧
    (g_object_new ops w daemon output input f).priv.input = input ∧
    (g_object_new ops w daemon output input f).priv.possible_formats = f ∧
    (g_object_new ops w daemon output input f).priv.format = none ∧
    (g_object_new ops w daemon output input f).priv.active = false ∧
    (g_object_new ops w daemon output input f).priv.daemon = daemon :=
  ⟨rfl, rfl, rfl, rfl, rfl, rfl⟩

/-- C2: for a port `O` of direction Output and a port `I` of direction Input,
`pinos_link_new (daemon, I, O, f)` builds the same link (same private structure, same
outward calls, same resulting state) as `pinos_link_new (daemon, O, I, f)`, and that
link has output `O`, input `I` and possible-formats `f`. -/
theorem pinos_link_new_swapped_arguments {W : Type} (ops : PortOps W) (w : W)
    (daemon : Option DaemonRef) (O I : Option PortRef) (f : Option GBytes)
    (hO : ops.get_direction w O = PinosDirection.PINOS_DIRECTION_OUTPUT)
    (hI : ops.get_direction w I = PinosDirection.PINOS_DIRECTION_INPUT) :
    pinos_link_new ops w daemon I O f = pinos_link_new ops w daemon O I f ∧
    (pinos_link_new ops w daemon O I f).map (fun s => s.priv.output) = some O ∧
    (pinos_link_new ops w daemon O I f).map (fun s => s.priv.input) = some I ∧
    (pinos_link_new ops w daemon O I f).map (fun s => s.priv.possible_formats) = some f := by
  have h1 : pinos_link_new ops w daemon O I f = some (g_object_new ops w daemon O I f) := by
    simp [pinos_link_new, hO]
  have h2 : pinos_link_new ops w daemon I O f = some (g_object_new ops w daemon O I f) := by
    simp [pinos_link_new, hI]
  rw [h1, h2]
  exact ⟨rfl, rfl, rfl, rfl⟩

/-- C2 at the ports of `worldOutIn`, with the filter `{2}`. -/
theorem pinos_link_new_swapped_arguments_witness :
    pinos_link_new specOps worldOutIn (some 0) (some 1) (some 0) (some [2])
      = pinos_link_new specOps worldOutIn (some 0) (some 0) (some 1) (some [2]) ∧
    (pinos_link_new specOps worldOutIn (some 0) (some 0) (some 1) (some [2])).map
      (fun s => s.priv.output) = some (some 0) ∧
    (pinos_link_new specOps worldOutIn (some 0) (some 0) (some 1) (some [2])).map
      (fun s => s.priv.input) = some (some 1) ∧
    (pinos_link_new specOps worldOutIn (some 0) (some 0) (some 1) (some [2])).map
      (fun s => s.priv.possible_formats) = some (some [2]) :=
  pinos_link_new_swapped_arguments specOps worldOutIn (some 0) (some 0) (some 1) (some [2])
    (by decide) (by decide)

/-- C3, refuted: given two input ports, `pinos_link_new` does not fail. It returns a
link, swaps the two arguments, and constructs the link in full (two callbacks
registered, object exported), with an input port in the place of the output; given two
output ports it returns a link with an output port in the place of the input. -/
theorem pinos_link_new_same_direction_builds_link :
    ((pinos_link_new specOps worldTwoInputs (some 0) (some 0) (some 1) none).map
        (fun s => (s.priv.output, s.priv.input, s.priv.output_id, s.priv.object_path))
      = some (some 1, some 0, 1, some 0) ∧
      specOps.get_direction worldTwoInputs (some 1) = PinosDirection.PINOS_DIRECTION_INPUT ∧
      (pinos_link_new specOps worldTwoInputs (some 0) (some 0) (some 1) none).map
        (fun s => s.calls.take 2)
      = some [Call.port_add_send_buffer_cb (some 1) .on_output_send 1,
              Call.port_add_send_buffer_cb (some 0) .on_input_send 1]) ∧
    ((pinos_link_new specOps worldTwoOutputs (some 0) (some 0) (some 1) none).map
        (fun s => (s.priv.output, s.priv.input, s.priv.input_id, s.priv.object_path))
      = some (some 0, some 1, 1, some 0) ∧
      specOps.get_direction worldTwoOutputs (some 1) = PinosDirection.PINOS_DIRECTION_OUTPUT) := by
  decide

/-- C3, amended: `pinos_link_new` has no failure path. For every pair of ports it
returns a link, whose output is the first port if that one is an output and the second
port otherwise, and whose input is the other one. The link's output port has direction
Output and its input port direction Input exactly when one of the two ports passed is
an output and the other an input. -/
theorem pinos_link_new_always_builds {W : Type} (ops : PortOps W) (w : W)
    (daemon : Option DaemonRef) (a b : Option PortRef) (f : Option GBytes) :
    (pinos_link_new ops w daemon a b f).isSome = true ∧
    (pinos_link_new ops w daemon a b f).map (fun s => (s.priv.output, s.priv.input))
      = some (if ops.get_direction w a = PinosDirection.PINOS_DIRECTION_OUTPUT
              then (a, b) else (b, a)) ∧
    ((pinos_link_new ops w daemon a b f).all
        (fun s => decide (ops.get_direction w s.priv.output = PinosDirection.PINOS_DIRECTION_OUTPUT ∧
                          ops.get_direction w s.priv.input = PinosDirection.PINOS_DIRECTION_INPUT))
      = true ↔
      (ops.get_direction w a = PinosDirection.PINOS_DIRECTION_OUTPUT ∧
          ops.get_direction w b = PinosDirection.PINOS_DIRECTION_INPUT) ∨
        (ops.get_direction w a = PinosDirection.PINOS_DIRECTION_INPUT ∧
          ops.get_direction w b = PinosDirection.PINOS_DIRECTION_OUTPUT)) := by
  by_cases ha : ops.get_direction w a = PinosDirection.PINOS_DIRECTION_OUTPUT
  · have h1 : pinos_link_new ops w daemon a b f = some (g_object_new ops w daemon a b f) := by
      simp [pinos_link_new, ha]
    rw [h1]
    refine ⟨rfl, ?_, ?_⟩
    · simp [ha, (g_object_new_priv ops w daemon a b f).1, (g_object_new_priv ops w daemon a b f).2.1]
    · simp [Option.all, ha, (g_object_new_priv ops w daemon a b f).1,
        (g_object_new_priv ops w daemon a b f).2.1]
  · have h1 : pinos_link_new ops w daemon a b f = some (g_object_new ops w daemon b a f) := by
      simp [pinos_link_new, ha]
    have ha' : ops.get_direction w a = PinosDirection.PINOS_DIRECTION_INPUT := by
      cases h : ops.get_direction w a
      · rfl
      · exact absurd h ha
    rw [h1]
    refine ⟨rfl, ?_, ?_⟩
    · simp [ha, (g_object_new_priv ops w daemon b a f).1, (g_object_new_priv ops w daemon b a f).2.1]
    · simp [Option.all, ha', (g_object_new_priv ops w daemon b a f).1,
        (g_object_new_priv ops w daemon b a f).2.1]


/-! ## Links reachable from creation -/

/-- What `on_activate` does to the link itself: the active flag is true afterwards and
nothing else has changed. -/
theorem on_activate_priv {W : Type} (ops : PortOps W) (port : Option PortRef) (s : Sys W) :
    (on_activate ops port s).2.priv = { s.priv with active := true } := by
  by_cases h : s.priv.active = true
  · obtain ⟨priv, world, calls⟩ := s
    obtain ⟨_, _, _, _, _, active, _, _, _, _⟩ := priv
    simp only at h
    subst h
    simp [on_activate]
  · by_cases hp : s.priv.input = port <;> simp [on_activate, h, hp, pinos_port_activate]

/-- What `on_deactivate` does to the link itself: the active flag is false afterwards and
nothing else has changed. -/
theorem on_deactivate_priv {W : Type} (ops : PortOps W) (port : Option PortRef) (s : Sys W) :
    (on_deactivate ops port s).2.priv = { s.priv with active := false } := by
  by_cases h : s.priv.active = true
  · by_cases hp : s.priv.input = port <;> simp [on_deactivate, h, hp, pinos_port_deactivate]
  · obtain ⟨priv, world, calls⟩ := s
    obtain ⟨_, _, _, _, _, active, _, _, _, _⟩ := priv
    simp only [Bool.not_eq_true] at h
    subst h
    simp [on_deactivate]

/-- Handling a sequence of events that ends with `e`. -/
theorem run_append_singleton {W : Type} (ops : PortOps W) (evs : List LinkEvent) (e : LinkEvent)
    (s : Sys W) : run ops (evs ++ [e]) s = e.handle ops (run ops evs s) := by
  simp [run, List.foldl_append]

/-- The active flag after a sequence of events is decided by the last activate or
deactivate event. -/
theorem run_active {W : Type} (ops : PortOps W) (evs : List LinkEvent) (s : Sys W) :
    (run ops evs s).priv.active = lastActivation s.priv.active evs := by
  induction evs using List.reverseRecOn with
  | nil => rfl
  | append_singleton evs e ih =>
    rw [run_append_singleton]
    simp only [lastActivation, List.foldl_append, List.foldl_cons, List.foldl_nil]
    cases e with
    | activate port => simp [LinkEvent.handle, on_activate_priv]
    | deactivate port => simp [LinkEvent.handle, on_deactivate_priv]
    | set_property prop_id value =>
      simp only [LinkEvent.handle]
      rw [← lastActivation, ← ih]
      cases prop_id <;> rfl

/-- The link's format after a sequence of events is what the last write of the format
property stored. -/
theorem run_format {W : Type} (ops : PortOps W) (evs : List LinkEvent) (s : Sys W) :
    (run ops evs s).priv.format = lastFormatWrite s.priv.format evs := by
  induction evs using List.reverseRecOn with
  | nil => rfl
  | append_singleton evs e ih =>
    rw [run_append_singleton]
    simp only [lastFormatWrite, List.foldl_append, List.foldl_cons, List.foldl_nil]
    cases e with
    | activate port => simp only [LinkEvent.handle, on_activate_priv]; rw [← lastFormatWrite, ← ih]
    | deactivate port =>
      simp only [LinkEvent.handle, on_deactivate_priv]; rw [← lastFormatWrite, ← ih]
    | set_property prop_id value =>
      simp only [LinkEvent.handle]
      cases prop_id <;> first | rfl | (rw [← lastFormatWrite, ← ih]; rfl)

/-- C6, refuted: the link created between a configured output port and an active input
port, both with format `{2}`, handles an activate event from its input port. Afterwards
the active flag is true, both ports are Active and their formats are equal, yet the
link's format is absent. -/
theorem active_link_has_no_format :
    (pinos_link_new specOps worldReady (some 0) (some 0) (some 1) none).map
      (fun s0 =>
        ((run specOps [.activate (some 1)] s0).priv.active,
         ((run specOps [.activate (some 1)] s0).world.port (some 0)).map (fun p => (p.state, p.format)),
         ((run specOps [.activate (some 1)] s0).world.port (some 1)).map (fun p => (p.state, p.format)),
         pinos_link_get_format (some (run specOps [.activate (some 1)] s0).priv)))
      = some (true, some (PortState.Active, some [2]), some (PortState.Active, some [2]), none) := by
  rfl

/-- C6, amended: for every link reachable from `pinos_link_new` by any sequence of port
activate/deactivate events and property writes, the active flag is true exactly when the
most recent activate/deactivate event was an activate, and the link's format is what the
most recent write of the format property stored, absent when there was none. The flag
and the format are independent of each other. -/
theorem reachable_link_active_and_format {W : Type} (ops : PortOps W) (w : W)
    (daemon : Option DaemonRef) (a b : Option PortRef) (f : Option GBytes)
    (evs : List LinkEvent) :
    (pinos_link_new ops w daemon a b f).map
      (fun s0 => ((run ops evs s0).priv.active, (run ops evs s0).priv.format))
      = some (lastActivation false evs, lastFormatWrite none evs) := by
  by_cases ha : ops.get_direction w a = PinosDirection.PINOS_DIRECTION_OUTPUT
  · simp only [pinos_link_new, ha, ne_eq, not_true_eq_false, if_false, Option.map_some']
    rw [run_active, run_format]
    rfl
  · simp only [pinos_link_new, ha, ne_eq, not_false_eq_true, if_true, Option.map_some']
    rw [run_active, run_format]
    rfl

/-! ## Disposal -/

/-- The outward calls of `pinos_link_dispose`, in order, and the link after it. -/
theorem pinos_link_dispose_calls {W : Type} (ops : PortOps W) (s : Sys W) :
    (pinos_link_dispose ops s).calls
      = s.calls ++
        ([Call.port_remove_send_buffer_cb s.priv.input s.priv.input_id,
          Call.port_remove_send_buffer_cb s.priv.output s.priv.output_id] ++
         (if s.priv.active then
            [Call.port_deactivate s.priv.input, Call.port_deactivate s.priv.output]
          else []) ++
         [Call.clear_object s.priv.input, Call.clear_object s.priv.output,
          Call.daemon_unexport s.priv.daemon s.priv.object_path]) ∧
    (pinos_link_dispose ops s).priv
      = { s.priv with active := false, input := none, output := none } := by
  by_cases h : s.priv.active = true
  · simp [pinos_link_dispose, h, pinos_port_remove_send_buffer_cb, pinos_port_deactivate,
      g_clear_object, link_unregister_object, pinos_daemon_unexport]
  · obtain ⟨priv, world, calls⟩ := s
    obtain ⟨_, _, _, _, _, active, _, _, _, _⟩ := priv
    simp only [Bool.not_eq_true] at h
    subst h
    simp [pinos_link_dispose, pinos_port_remove_send_buffer_cb, pinos_port_deactivate,
      g_clear_object, link_unregister_object, pinos_daemon_unexport]

/-- C8, refuted: disposing of the link between the ports of `worldOutIn`, inactive or
active, releases both port references and emits no `remove` event. -/
theorem pinos_link_dispose_emits_no_remove :
    ((pinos_link_dispose specOps
        (g_object_new specOps worldOutIn (some 0) (some 0) (some 1) none)).calls.drop 11
      = [Call.port_remove_send_buffer_cb (some 1) 1, Call.port_remove_send_buffer_cb (some 0) 1,
         Call.clear_object (some 1), Call.clear_object (some 0),
         Call.daemon_unexport (some 0) (some 0)]) ∧
    (pinos_link_dispose specOps
        (g_object_new specOps worldOutIn (some 0) (some 0) (some 1) none)).calls.contains
      (Call.signal_emit .SIGNAL_REMOVE) = false ∧
    (pinos_link_dispose specOps activeLinkOutIn).calls.contains
      (Call.signal_emit .SIGNAL_REMOVE) = false := by
  decide

/-- C8, amended: `pinos_link_dispose` itself emits no `remove` event; among its calls
are the release of the input and of the output reference, in that order. The `remove`
event is emitted by `pinos_link_remove`, which makes that one call and changes nothing
else. When disposal follows `pinos_link_remove`, the event therefore comes before the
release of the references. -/
theorem remove_is_emitted_by_pinos_link_remove {W : Type} (ops : PortOps W) (s : Sys W) :
    ((pinos_link_dispose ops s).calls.drop s.calls.length).contains
      (Call.signal_emit .SIGNAL_REMOVE) = false ∧
    pinos_link_remove (some s)
      = some { s with calls := s.calls ++ [Call.signal_emit .SIGNAL_REMOVE] } ∧
    (pinos_link_remove (some s)).map (fun s1 => (pinos_link_dispose ops s1).calls)
      = some (s.calls ++ [Call.signal_emit .SIGNAL_REMOVE] ++
          ([Call.port_remove_send_buffer_cb s.priv.input s.priv.input_id,
            Call.port_remove_send_buffer_cb s.priv.output s.priv.output_id] ++
           (if s.priv.active then
              [Call.port_deactivate s.priv.input, Call.port_deactivate s.priv.output]
            else []) ++
           [Call.clear_object s.priv.input, Call.clear_object s.priv.output,
            Call.daemon_unexport s.priv.daemon s.priv.object_path])) := by
  refine ⟨?_, rfl, ?_⟩
  · rw [(pinos_link_dispose_calls ops s).1, List.drop_left]
    by_cases h : s.priv.active = true <;> simp [h]
  · simp only [pinos_link_remove, g_signal_emit, Option.map_some']
    rw [(pinos_link_dispose_calls ops _).1]

/-! ## Formats -/

/-- C9, refuted: between an output port offering only format `1` and an input port
accepting only format `2`, whose intersection is empty, `pinos_link_new` returns a link,
registers a send-buffer callback on each port and has the daemon export an object. -/
theorem pinos_link_new_incompatible_formats_builds_link :
    formats_intersect ((worldIncompatible.port (some 0)).bind (fun p => p.possible_formats))
      ((worldIncompatible.port (some 1)).bind (fun p => p.possible_formats)) = [] ∧
    (pinos_link_new specOps worldIncompatible (some 0) (some 0) (some 1) none).map
      (fun s => (s.calls.filterMap Call.registers, s.priv.object_path, s.world.exported,
                 s.world.ports.map (fun p => p.send_buffer_cbs)))
      = some ([(some 0, 1), (some 1, 1)], some 0, [0],
              [[(1, SendBufferCb.on_output_send)], [(1, SendBufferCb.on_input_send)]]) := by
  refine ⟨by decide, by rfl⟩

/-- The export made by `link_register_object` is its last outward call, and the path it
returned is the one the link keeps. -/
theorem link_register_object_last {W : Type} (ops : PortOps W) (s : Sys W) :
    (link_register_object ops s).calls.getLast?
      = (link_register_object ops s).priv.object_path.map
          (Call.daemon_export_uniquely s.priv.daemon) := by
  simp [link_register_object, pinos_daemon_export_uniquely]

/-- C9, amended: for every output port `O` and every other port `I`, whatever their
possible formats, `pinos_link_new` returns the link constructed on `O` and `I`. Its first
two outward calls register `on_output_send` on `O` and `on_input_send` on `I`, and its
last one has the daemon export the object whose path the link keeps. -/
theorem pinos_link_new_registers_and_exports {W : Type} (ops : PortOps W) (w : W)
    (daemon : Option DaemonRef) (O I : Option PortRef) (f : Option GBytes)
    (hO : ops.get_direction w O = PinosDirection.PINOS_DIRECTION_OUTPUT) :
    pinos_link_new ops w daemon O I f = some (g_object_new ops w daemon O I f) ∧
    (g_object_new ops w daemon O I f).calls.take 2
      = [Call.port_add_send_buffer_cb O .on_output_send
           (g_object_new ops w daemon O I f).priv.output_id,
         Call.port_add_send_buffer_cb I .on_input_send
           (g_object_new ops w daemon O I f).priv.input_id] ∧
    (g_object_new ops w daemon O I f).calls.getLast?
      = (g_object_new ops w daemon O I f).priv.object_path.map
          (Call.daemon_export_uniquely daemon) ∧
    (g_object_new ops w daemon O I f).priv.object_path.isSome = true := by
  refine ⟨by simp [pinos_link_new, hO], rfl, ?_, rfl⟩
  exact link_register_object_last ops _

/-- C9, amended, at the ports of `worldIncompatible`. -/
theorem pinos_link_new_registers_and_exports_witness :
    pinos_link_new specOps worldIncompatible (some 0) (some 0) (some 1) none
      = some (g_object_new specOps worldIncompatible (some 0) (some 0) (some 1) none) ∧
    (g_object_new specOps worldIncompatible (some 0) (some 0) (some 1) none).calls.take 2
      = [Call.port_add_send_buffer_cb (some 0) .on_output_send 1,
         Call.port_add_send_buffer_cb (some 1) .on_input_send 1] :=
  ⟨(pinos_link_new_registers_and_exports specOps worldIncompatible (some 0) (some 0) (some 1)
      none (by decide)).1,
   (pinos_link_new_registers_and_exports specOps worldIncompatible (some 0) (some 0) (some 1)
      none (by decide)).2.1⟩

/-- Without a write of the format property the link's format is what it was. -/
theorem lastFormatWrite_of_no_write (init : Option GBytes) (evs : List LinkEvent)
    (h : ∀ e ∈ evs, e.writesFormat = false) : lastFormatWrite init evs = init := by
  induction evs using List.reverseRecOn with
  | nil => rfl
  | append_singleton evs e ih =>
    have ih1 := ih (fun x hx => h x (List.mem_append_left _ hx))
    have he := h e (by simp)
    simp only [lastFormatWrite, List.foldl_append, List.foldl_cons, List.foldl_nil]
    rw [← lastFormatWrite, ih1]
    cases e with
    | activate port => rfl
    | deactivate port => rfl
    | set_property prop_id value =>
      cases prop_id <;> first | rfl | (simp [LinkEvent.writesFormat] at he)

/-- C10: for every filter `f`, NULL included, the link returned by `pinos_link_new`
reports `f` from `pinos_link_get_possible_formats` and NULL from `pinos_link_get_format`,
and `pinos_link_get_format` still reports NULL after any sequence of port events and
property writes in which the format property is not written. -/
theorem pinos_link_new_formats {W : Type} (ops : PortOps W) (w : W)
    (daemon : Option DaemonRef) (output input : Option PortRef) (f : Option GBytes)
    (evs : List LinkEvent) (h : ∀ e ∈ evs, e.writesFormat = false) :
    (pinos_link_new ops w daemon output input f).isSome = true ∧
    pinos_link_get_possible_formats
      ((pinos_link_new ops w daemon output input f).map (fun s => s.priv)) = f ∧
    pinos_link_get_format
      ((pinos_link_new ops w daemon output input f).map (fun s => s.priv)) = none ∧
    pinos_link_get_format
      ((pinos_link_new ops w daemon output input f).map (fun s => (run ops evs s).priv)) = none := by
  by_cases ha : ops.get_direction w output = PinosDirection.PINOS_DIRECTION_OUTPUT
  · simp only [pinos_link_new, ha, ne_eq, not_true_eq_false, if_false, Option.map_some',
      pinos_link_get_possible_formats, pinos_link_get_format]
    rw [run_format, lastFormatWrite_of_no_write _ _ h]
    exact ⟨rfl, rfl, rfl, rfl⟩
  · simp only [pinos_link_new, ha, ne_eq, not_false_eq_true, if_true, Option.map_some',
      pinos_link_get_possible_formats, pinos_link_get_format]
    rw [run_format, lastFormatWrite_of_no_write _ _ h]
    exact ⟨rfl, rfl, rfl, rfl⟩

/-- C10 on the link created between the ports of `worldOutIn` with the filter `{2}`:
the filter is reported, and the format is NULL at creation and still NULL after an
activate event, a deactivate event and a rewrite of the filter. -/
theorem pinos_link_new_formats_witness :
    pinos_link_get_possible_formats
      ((pinos_link_new specOps worldOutIn (some 0) (some 0) (some 1) (some [2])).map
        (fun s => s.priv)) = some [2] ∧
    pinos_link_get_format
      ((pinos_link_new specOps worldOutIn (some 0) (some 0) (some 1) (some [2])).map
        (fun s => (run specOps [.activate (some 0), .deactivate (some 1),
          .set_property .PROP_POSSIBLE_FORMATS (.boxed none)] s).priv)) = none :=
  ⟨(pinos_link_new_formats specOps worldOutIn (some 0) (some 0) (some 1) (some [2])
      [.activate (some 0), .deactivate (some 1),
        .set_property .PROP_POSSIBLE_FORMATS (.boxed none)] (by decide)).2.1,
   (pinos_link_new_formats specOps worldOutIn (some 0) (some 0) (some 1) (some [2])
      [.activate (some 0), .deactivate (some 1),
        .set_property .PROP_POSSIBLE_FORMATS (.boxed none)] (by decide)).2.2.2⟩

/-! ## Synchronous delivery of port signals -/

/-- A call of `pinos_port_activate` on a port that raises nothing is the plain call. -/
theorem pinos_port_activate_sync_quiet {W : Type} (ops : PortOps W) (sg : PortSignals W)
    (n : Nat) (port : Option PortRef) (s : Sys W)
    (h : sg.raises_activate s.world port = false) :
    pinos_port_activate_sync ops sg (n + 1) port s = some (pinos_port_activate ops port s) := by
  simp [pinos_port_activate_sync, h]

/-- A call of `pinos_port_activate` on a port that raises `activate`, with `on_activate`
as the one connected handler, runs `on_activate` inside the call, with the port as
emitter. -/
theorem pinos_port_activate_sync_raises {W : Type} (ops : PortOps W) (sg : PortSignals W)
    (n : Nat) (port : Option PortRef) (s : Sys W)
    (h : sg.raises_activate s.world port = true)
    (hconn : connected s port .activate = [SignalHandler.on_activate]) :
    pinos_port_activate_sync ops sg (n + 2) port s
      = (on_activate_sync ops sg n port (pinos_port_activate ops port s)).map (fun r => r.2) := by
  rw [pinos_port_activate_sync]
  simp only [h, if_true, hconn]
  rw [List.foldlM_cons, signal_handler_sync]
  cases on_activate_sync ops sg n port (pinos_port_activate ops port s) <;> rfl

/-- C11, on the code: take an inactive link with two distinct ports, `P` one of them and
`peer` the other, with `on_activate` connected to the peer's `activate` signal as
construction connects it. The link handles an activate event from `P`, and
`pinos_port_activate` on the peer delivers the peer's own activate event back to the link
(while `P`, already active, raises nothing more). The nested handler runs while the
active flag is still false, because `on_activate` sets the flag only after
`pinos_port_activate` has returned, and so it calls `pinos_port_activate` on `P`. With any
fuel of 5 or more the handler returns TRUE with the flag set, after two calls: one on the
peer and one on the originating port. -/
theorem on_activate_sync_reenters_originating_port {W : Type} (ops : PortOps W)
    (sg : PortSignals W) (n : Nat) (s : Sys W) (P peer : Option PortRef)
    (hact : s.priv.active = false) (hne : P ≠ peer)
    (hP : (P = s.priv.input ∧ peer = s.priv.output) ∨ (P = s.priv.output ∧ peer = s.priv.input))
    (hconn : connected s peer .activate = [SignalHandler.on_activate])
    (hraise : sg.raises_activate s.world peer = true)
    (hquiet : sg.raises_activate (ops.activate s.world peer) P = false) :
    on_activate_sync ops sg (n + 5) P s
      = some (true,
          { priv := { s.priv with active := true },
            world := ops.activate (ops.activate s.world peer) P,
            calls := s.calls ++ [Call.port_activate peer, Call.port_activate P] }) := by
  have hinner : on_activate_sync ops sg (n + 2) peer (pinos_port_activate ops peer s)
      = some (true,
          { priv := { s.priv with active := true },
            world := ops.activate (ops.activate s.world peer) P,
            calls := s.calls ++ [Call.port_activate peer, Call.port_activate P] }) := by
    have hq := pinos_port_activate_sync_quiet ops sg n P (pinos_port_activate ops peer s) hquiet
    rcases hP with ⟨h1, h2⟩ | ⟨h1, h2⟩
    · subst h1 h2
      have hne' : ¬ s.priv.input = s.priv.output := hne
      simp only [pinos_port_activate] at hq
      simp [on_activate_sync, hact, hne', pinos_port_activate, hq]
    · subst h1 h2
      simp only [pinos_port_activate] at hq
      simp [on_activate_sync, hact, pinos_port_activate, hq]
  have houter := pinos_port_activate_sync_raises ops sg (n + 2) peer s hraise hconn
  rw [hinner] at houter
  rcases hP with ⟨h1, h2⟩ | ⟨h1, h2⟩
  · subst h1 h2
    simp [on_activate_sync, hact, houter]
  · subst h1 h2
    have hne' : ¬ s.priv.input = s.priv.output := fun e => hne e.symm
    simp [on_activate_sync, hact, hne', houter]

/-- C11 on `readyLink` (output port 0 configured, input port 1 active): handling the
activate event of port 1 with fuel 5, the nested handler finds the flag false and the link
calls `pinos_port_activate` on port 0 and then on port 1, the port the event came from. -/
theorem on_activate_sync_reenters_originating_port_witness :
    (pinos_port_activate specOps (some 0) readyLink).priv.active = false ∧
    (on_activate_sync specOps specSignals 5 (some 1) readyLink).map
        (fun r => (r.1, r.2.calls.drop 11, r.2.priv.active))
      = some (true, [Call.port_activate (some 0), Call.port_activate (some 1)], true) := by
  have h := on_activate_sync_reenters_originating_port specOps specSignals 0 readyLink
    (some 1) (some 0) rfl (by decide) (Or.inl ⟨rfl, rfl⟩) rfl rfl rfl
  refine ⟨rfl, ?_⟩
  rw [h]
  rfl

/-- With the active flag false, `on_deactivate` returns at once, also under synchronous
delivery: no call, no change. -/
theorem on_deactivate_sync_inactive {W : Type} (ops : PortOps W) (sg : PortSignals W) (n : Nat)
    (port : Option PortRef) (s : Sys W) (h : s.priv.active = false) :
    on_deactivate_sync ops sg (n + 1) port s = some (true, s) := by
  simp [on_deactivate_sync, h]

/-- The handlers connected to a `deactivate` signal are all `on_deactivate` when the
connections made so far say so. -/
theorem connected_deactivate_eq {W : Type} (s : Sys W) (port : Option PortRef)
    (hc : deactivateHandlersAreOnDeactivate s = true) :
    ∀ h ∈ connected s port .deactivate, h = SignalHandler.on_deactivate := by
  intro h hh
  simp only [connected, List.mem_filterMap] at hh
  obtain ⟨c, hc1, hc2⟩ := hh
  simp only [deactivateHandlersAreOnDeactivate, List.all_eq_true] at hc
  have := hc c hc1
  cases c <;> simp at hc2
  rename_i p sg0 h0
  obtain ⟨⟨_, hsg⟩, hh0⟩ := hc2
  subst hsg hh0
  simpa using this

/-- Delivery of a `deactivate` signal to handlers that are all `on_deactivate`, on a link
whose active flag is false, changes nothing. -/
theorem deliver_deactivate_inactive {W : Type} (ops : PortOps W) (sg : PortSignals W) (n : Nat)
    (port : Option PortRef) (hs : List SignalHandler)
    (hall : ∀ h ∈ hs, h = SignalHandler.on_deactivate) (s : Sys W)
    (hact : s.priv.active = false) :
    hs.foldlM (fun acc h => signal_handler_sync ops sg (n + 2) h port acc) s = some s := by
  induction hs with
  | nil => rfl
  | cons h hs ih =>
    have hh : h = SignalHandler.on_deactivate := hall h (by simp)
    subst hh
    have hstep : signal_handler_sync ops sg (n + 2) SignalHandler.on_deactivate port s = some s := by
      rw [signal_handler_sync, on_deactivate_sync_inactive ops sg n port s hact]
      rfl
    rw [List.foldlM_cons, hstep]
    exact ih (fun x hx => hall x (List.mem_cons_of_mem _ hx))

/-- On a link whose active flag is false and whose `deactivate` handlers are all
`on_deactivate`, a call of `pinos_port_deactivate` with synchronous delivery does what the
plain call does, whether or not the port raises its signal. -/
theorem pinos_port_deactivate_sync_inactive {W : Type} (ops : PortOps W) (sg : PortSignals W)
    (n : Nat) (port : Option PortRef) (s : Sys W) (hact : s.priv.active = false)
    (hc : deactivateHandlersAreOnDeactivate s = true) :
    pinos_port_deactivate_sync ops sg (n + 3) port s = some (pinos_port_deactivate ops port s) := by
  by_cases hr : sg.raises_deactivate s.world port = true
  · simp only [pinos_port_deactivate_sync, hr, if_true]
    exact deliver_deactivate_inactive ops sg n port _ (connected_deactivate_eq s port hc) _ hact
  · simp [pinos_port_deactivate_sync, hr]

/-- Recording a call that is not a connection leaves the connection check as it was. -/
theorem deactivateHandlers_log {W : Type} (s : Sys W) (priv : PinosLinkPrivate) (w : W)
    (c : Call) (hc : deactivateHandlersAreOnDeactivate s = true)
    (hcall : (match c with
      | .signal_connect _ .deactivate h => decide (h = SignalHandler.on_deactivate)
      | _ => true) = true) :
    deactivateHandlersAreOnDeactivate
      ({ priv := priv, world := w, calls := s.calls ++ [c] } : Sys W) = true := by
  simp only [deactivateHandlersAreOnDeactivate, List.all_append, List.all_cons, List.all_nil,
    Bool.and_true, Bool.and_eq_true] at hc ⊢
  exact ⟨hc, hcall⟩

/-- Under synchronous delivery, `pinos_link_dispose` of an active link whose `deactivate`
handlers are all `on_deactivate` ends in the same state, after the same calls, as without
delivery: every nested handler finds the flag already cleared. -/
theorem pinos_link_dispose_sync_eq {W : Type} (ops : PortOps W) (sg : PortSignals W) (n : Nat)
    (s : Sys W) (hc : deactivateHandlersAreOnDeactivate s = true) :
    pinos_link_dispose_sync ops sg (n + 3) s = some (pinos_link_dispose ops s) := by
  by_cases hact : s.priv.active = true
  · have h1 := deactivateHandlers_log s s.priv
      (ops.remove_send_buffer_cb s.world s.priv.input s.priv.input_id)
      (Call.port_remove_send_buffer_cb s.priv.input s.priv.input_id) hc rfl
    have h2 := deactivateHandlers_log _ { s.priv with active := false }
      (ops.remove_send_buffer_cb (ops.remove_send_buffer_cb s.world s.priv.input s.priv.input_id)
        s.priv.output s.priv.output_id)
      (Call.port_remove_send_buffer_cb s.priv.output s.priv.output_id) h1 rfl
    have h3 := deactivateHandlers_log _ { s.priv with active := false }
      (ops.deactivate (ops.remove_send_buffer_cb
        (ops.remove_send_buffer_cb s.world s.priv.input s.priv.input_id)
        s.priv.output s.priv.output_id) s.priv.input)
      (Call.port_deactivate s.priv.input) h2 rfl
    have e1 := pinos_port_deactivate_sync_inactive ops sg n s.priv.input _ rfl h2
    have e2 := pinos_port_deactivate_sync_inactive ops sg n s.priv.output _ rfl h3
    simp only [pinos_link_dispose_sync, pinos_link_dispose, pinos_port_remove_send_buffer_cb, hact,
      if_true]
    simp only [pinos_port_deactivate] at e1 e2
    simp only [pinos_port_deactivate, e1, Option.some_bind, Option.bind_eq_bind, e2, Option.map_some']
  · simp [pinos_link_dispose_sync, pinos_link_dispose, pinos_port_remove_send_buffer_cb, hact]

/-- C13: on an active link `pinos_link_dispose` clears the active flag before it
deactivates the ports. So when each `pinos_port_deactivate` delivers the port's
`deactivate` signal back to the link before returning, every nested `on_deactivate` finds
the flag false and does nothing. With any fuel of 3 or more, disposal completes; between
the two callback removals and the release of the references it calls
`pinos_port_deactivate` once on the input port and then once on the output port, and makes
no other deactivation call; the flag is false afterwards. -/
theorem pinos_link_dispose_sync_deactivates_each_port_once {W : Type} (ops : PortOps W)
    (sg : PortSignals W) (n : Nat) (s : Sys W) (hact : s.priv.active = true)
    (hc : deactivateHandlersAreOnDeactivate s = true) :
    (pinos_link_dispose_sync ops sg (n + 3) s).map (fun r => r.calls)
      = some (s.calls ++
          [Call.port_remove_send_buffer_cb s.priv.input s.priv.input_id,
           Call.port_remove_send_buffer_cb s.priv.output s.priv.output_id,
           Call.port_deactivate s.priv.input, Call.port_deactivate s.priv.output,
           Call.clear_object s.priv.input, Call.clear_object s.priv.output,
           Call.daemon_unexport s.priv.daemon s.priv.object_path]) ∧
    (pinos_link_dispose_sync ops sg (n + 3) s).map (fun r => r.priv.active) = some false ∧
    (∀ port, on_deactivate_sync ops sg (n + 1) port
        ({ s with priv := { s.priv with active := false } } : Sys W)
      = some (true, { s with priv := { s.priv with active := false } })) := by
  rw [pinos_link_dispose_sync_eq ops sg n s hc]
  have hd := pinos_link_dispose_calls ops s
  refine ⟨?_, ?_, fun port => on_deactivate_sync_inactive ops sg n port _ rfl⟩
  · simp only [Option.map_some', hd.1, hact, if_true]
    simp
  · simp only [Option.map_some', hd.2]

/-- C13 on `activeReadyLink`, whose two ports are Active, so that each
`pinos_port_deactivate` raises the port's signal and runs the nested handler: with fuel 3
disposal completes after one deactivation call on the input port (port 1) and one on the
output port (port 0), and both ports have left the Active state. -/
theorem pinos_link_dispose_sync_deactivates_each_port_once_witness :
    (specSignals.raises_deactivate activeReadyLink.world (some 1) = true ∧
      specSignals.raises_deactivate activeReadyLink.world (some 0) = true) ∧
    (pinos_link_dispose_sync specOps specSignals 3 activeReadyLink).map (fun r => r.calls)
      = some (activeReadyLink.calls ++
          [Call.port_remove_send_buffer_cb (some 1) 1, Call.port_remove_send_buffer_cb (some 0) 1,
           Call.port_deactivate (some 1), Call.port_deactivate (some 0),
           Call.clear_object (some 1), Call.clear_object (some 0),
           Call.daemon_unexport (some 0) (some 0)]) ∧
    (pinos_link_dispose_sync specOps specSignals 3 activeReadyLink).map
        (fun r => r.world.ports.map (fun p => p.state))
      = some [PortState.Configured, PortState.Configured] :=
  ⟨⟨rfl, rfl⟩,
   (pinos_link_dispose_sync_deactivates_each_port_once specOps specSignals 0 activeReadyLink
      rfl rfl).1,
   by rfl⟩

/-! ## Copy of the formats at construction -/

/-- The port a pointer designates after an update of the port another pointer designates. -/
theorem SpecWorld.port_update (w : SpecWorld) (p q : Nat) (g : PinosPort → PinosPort) :
    (w.update (some p) g).port (some q)
      = (w.port (some q)).map (fun a => if p = q then g a else a) := by
  simp [SpecWorld.update, SpecWorld.port, List.get?_eq_getElem?, List.getElem?_modify]

/-- Exporting an object leaves the ports as they are. -/
theorem SpecWorld.port_export (w : SpecWorld) (e : List ObjectPath) (n : Nat)
    (p : Option PortRef) :
    ({ w with exported := e, next_path := n } : SpecWorld).port p = w.port p := rfl

/-- C12: construction copies the input port's possible-formats onto the output port and
then the output port's format onto the input port, whatever the link's filter `f` is.
For every behaviour of the port functions, the third to sixth outward calls of
construction read `possible-formats` of the input, write the value read to the output,
read `format` of the output and write the value read to the input. Over ports that store
their properties, for every two existing ports: afterwards the output's possible-formats
are the input's prior possible-formats and the input's format is the output's prior
format, while the input's possible-formats and the output's format are unchanged. -/
theorem pinos_link_constructed_copies_formats :
    (∀ {W : Type} (ops : PortOps W) (w : W) (daemon : Option DaemonRef)
        (output input : Option PortRef) (f : Option GBytes),
      ((g_object_new ops w daemon output input f).calls.drop 2).take 4
        = [Call.port_get input .possible_formats,
           Call.port_set output .possible_formats
             (ops.get_property
               (ops.add_send_buffer_cb (ops.add_send_buffer_cb w output .on_output_send).2
                 input .on_input_send).2
               input .possible_formats),
           Call.port_get output .format,
           Call.port_set input .format
             (ops.get_property
               (ops.set_property
                 (ops.add_send_buffer_cb (ops.add_send_buffer_cb w output .on_output_send).2
                   input .on_input_send).2
                 output .possible_formats
                 (ops.get_property
                   (ops.add_send_buffer_cb (ops.add_send_buffer_cb w output .on_output_send).2
                     input .on_input_send).2
                   input .possible_formats))
               output .format)]) ∧
    (∀ (w : SpecWorld) (daemon : Option DaemonRef) (o i : Nat) (f : Option GBytes)
        (po pi : PinosPort),
      w.port (some o) = some po → w.port (some i) = some pi →
      ((g_object_new specOps w daemon (some o) (some i) f).world.port (some o)).map
          (fun p => (p.possible_formats, p.format))
        = some (pi.possible_formats, po.format) ∧
      ((g_object_new specOps w daemon (some o) (some i) f).world.port (some i)).map
          (fun p => (p.possible_formats, p.format))
        = some (pi.possible_formats, po.format)) := by
  refine ⟨fun ops w daemon output input f => rfl, ?_⟩
  intro w daemon o i f po pi hpo hpi
  by_cases h : o = i
  · subst h
    have hpp : pi = po := Option.some.inj (hpi.symm.trans hpo)
    subst hpp
    simp [g_object_new, pinos_link_constructed, pinos_link_set_property, pinos_link_init,
      g_value_dup_object, g_value_dup_boxed, pinos_port_add_send_buffer_cb, g_object_get,
      g_object_set, g_signal_connect, link_register_object, pinos_daemon_export_uniquely,
      specOps, SpecWorld.port_update, SpecWorld.port_export, hpo, PinosPort.get, PinosPort.set,
      PinosPort.add_send_buffer_cb]
  · have h' : ¬ i = o := fun e => h e.symm
    simp [g_object_new, pinos_link_constructed, pinos_link_set_property, pinos_link_init,
      g_value_dup_object, g_value_dup_boxed, pinos_port_add_send_buffer_cb, g_object_get,
      g_object_set, g_signal_connect, link_register_object, pinos_daemon_export_uniquely,
      specOps, SpecWorld.port_update, SpecWorld.port_export, hpo, hpi, h, h', PinosPort.get,
      PinosPort.set, PinosPort.add_send_buffer_cb]

/-- C12 on the ports of `worldFormats`, with the filter `{9}`: afterwards the output port
(port 0) has the input's possible formats `{2, 3}` and keeps its format `{5}`, and the
input port (port 1) keeps its possible formats `{2, 3}` and has the output's format `{5}`. -/
theorem pinos_link_constructed_copies_formats_witness :
    ((g_object_new specOps worldFormats (some 0) (some 0) (some 1) (some [9])).world.port
        (some 0)).map (fun p => (p.possible_formats, p.format))
      = some (some [2, 3], some [5]) ∧
    ((g_object_new specOps worldFormats (some 0) (some 0) (some 1) (some [9])).world.port
        (some 1)).map (fun p => (p.possible_formats, p.format))
      = some (some [2, 3], some [5]) :=
  pinos_link_constructed_copies_formats.2 worldFormats (some 0) 0 1 (some [9])
    { freshPort .PINOS_DIRECTION_OUTPUT (some [1, 2]) with format := some [5] }
    (freshPort .PINOS_DIRECTION_INPUT (some [2, 3])) rfl rfl

/-! ## Paired activation and deactivation under synchronous delivery -/

/-- Two private structures that agree except on the active flag are equal once the flag is
set to the same value in both. -/
theorem exceptActive_set (p q : PinosLinkPrivate) (b : Bool)
    (h : p.exceptActive = q.exceptActive) :
    ({ p with active := b } : PinosLinkPrivate) = { q with active := b } := by
  cases p
  cases q
  simp only [PinosLinkPrivate.exceptActive, PinosLinkPrivate.mk.injEq] at h ⊢
  tauto

/-- Running handlers one after the other keeps what each of them keeps: the calls made so
far stay a prefix of the log, and the link changes at most in its active flag. -/
theorem foldlM_handlers_inv {W : Type} (f : Sys W → SignalHandler → Option (Sys W))
    (hf : ∀ acc h s', f acc h = some s' →
      acc.calls <+: s'.calls ∧ s'.priv.exceptActive = acc.priv.exceptActive) :
    ∀ (hs : List SignalHandler) (s s' : Sys W), hs.foldlM f s = some s' →
      s.calls <+: s'.calls ∧ s'.priv.exceptActive = s.priv.exceptActive := by
  intro hs
  induction hs with
  | nil =>
    intro s s' h
    simp only [List.foldlM_nil, pure, Option.some.injEq] at h
    subst h
    exact ⟨List.prefix_refl _, rfl⟩
  | cons h0 hs ih =>
    intro s s' h
    rw [List.foldlM_cons] at h
    cases hfa : f s h0 with
    | none => simp [hfa] at h
    | some a =>
      simp only [hfa, Option.bind_eq_bind, Option.some_bind] at h
      obtain ⟨h1, h2⟩ := hf s h0 a hfa
      obtain ⟨h3, h4⟩ := ih a s' h
      exact ⟨h1.trans h3, h4.trans h2⟩

/-- Whatever the ports raise and however deep the delivery nests, a port call with
synchronous delivery first records the call itself, and every handler or port call only
adds to the log of calls and changes the link at most in its active flag. -/
theorem sync_inv {W : Type} (ops : PortOps W) (sg : PortSignals W) : ∀ n : Nat,
    (∀ port s s', pinos_port_activate_sync ops sg n port s = some s' →
      (s.calls ++ [Call.port_activate port]) <+: s'.calls ∧
        s'.priv.exceptActive = s.priv.exceptActive) ∧
    (∀ port s s', pinos_port_deactivate_sync ops sg n port s = some s' →
      (s.calls ++ [Call.port_deactivate port]) <+: s'.calls ∧
        s'.priv.exceptActive = s.priv.exceptActive) ∧
    (∀ h port s s', signal_handler_sync ops sg n h port s = some s' →
      s.calls <+: s'.calls ∧ s'.priv.exceptActive = s.priv.exceptActive) ∧
    (∀ port s r, on_activate_sync ops sg n port s = some r →
      s.calls <+: r.2.calls ∧ r.2.priv.exceptActive = s.priv.exceptActive) ∧
    (∀ port s r, on_deactivate_sync ops sg n port s = some r →
      s.calls <+: r.2.calls ∧ r.2.priv.exceptActive = s.priv.exceptActive) := by
  intro n
  induction n with
  | zero =>
    refine ⟨?_, ?_, ?_, ?_, ?_⟩
    · intro port s s' h; simp [pinos_port_activate_sync] at h
    · intro port s s' h; simp [pinos_port_deactivate_sync] at h
    · intro h0 port s s' h; simp [signal_handler_sync] at h
    · intro port s r h; simp [on_activate_sync] at h
    · intro port s r h; simp [on_deactivate_sync] at h
  | succ n ih =>
    obtain ⟨ihA, ihD, ihH, ihOA, ihOD⟩ := ih
    refine ⟨?_, ?_, ?_, ?_, ?_⟩
    · intro port s s' h
      rw [pinos_port_activate_sync] at h
      by_cases hr : sg.raises_activate s.world port = true
      · simp only [hr, if_true] at h
        exact foldlM_handlers_inv _ (fun acc h0 t ht => ihH h0 port acc t ht) _ _ _ h
      · simp only [hr, Bool.false_eq_true, if_false, Option.some.injEq] at h
        subst h
        exact ⟨List.prefix_refl _, rfl⟩
    · intro port s s' h
      rw [pinos_port_deactivate_sync] at h
      by_cases hr : sg.raises_deactivate s.world port = true
      · simp only [hr, if_true] at h
        exact foldlM_handlers_inv _ (fun acc h0 t ht => ihH h0 port acc t ht) _ _ _ h
      · simp only [hr, Bool.false_eq_true, if_false, Option.some.injEq] at h
        subst h
        exact ⟨List.prefix_refl _, rfl⟩
    · intro h0 port s s' h
      cases h0 with
      | on_activate =>
        rw [signal_handler_sync] at h
        cases hr : on_activate_sync ops sg n port s with
        | none => simp [hr] at h
        | some r =>
          simp only [hr, Option.map_some', Option.some.injEq] at h
          subst h
          exact ihOA port s r hr
      | on_deactivate =>
        rw [signal_handler_sync] at h
        cases hr : on_deactivate_sync ops sg n port s with
        | none => simp [hr] at h
        | some r =>
          simp only [hr, Option.map_some', Option.some.injEq] at h
          subst h
          exact ihOD port s r hr
    · intro port s r h
      rw [on_activate_sync] at h
      by_cases ha : s.priv.active = true
      · simp only [ha, if_true, Option.some.injEq] at h
        subst h
        exact ⟨List.prefix_refl _, rfl⟩
      · simp only [ha, if_false, Bool.false_eq_true] at h
        cases hc : (if s.priv.input = port then pinos_port_activate_sync ops sg n s.priv.output s
            else pinos_port_activate_sync ops sg n s.priv.input s) with
        | none => simp [hc] at h
        | some s1 =>
          simp only [hc, Option.map_some', Option.some.injEq] at h
          subst h
          have hs1 : s.calls <+: s1.calls ∧ s1.priv.exceptActive = s.priv.exceptActive := by
            by_cases hp : s.priv.input = port
            · simp only [hp, if_true] at hc
              obtain ⟨h1, h2⟩ := ihA _ _ _ hc
              exact ⟨(List.prefix_append _ _).trans h1, h2⟩
            · simp only [hp, if_false] at hc
              obtain ⟨h1, h2⟩ := ihA _ _ _ hc
              exact ⟨(List.prefix_append _ _).trans h1, h2⟩
          exact ⟨hs1.1, hs1.2⟩
    · intro port s r h
      rw [on_deactivate_sync] at h
      by_cases ha : s.priv.active = true
      · simp only [ha, Bool.not_true, Bool.false_eq_true, if_false] at h
        cases hc : (if s.priv.input = port then pinos_port_deactivate_sync ops sg n s.priv.output s
            else pinos_port_deactivate_sync ops sg n s.priv.input s) with
        | none => simp [hc] at h
        | some s1 =>
          simp only [hc, Option.map_some', Option.some.injEq] at h
          subst h
          have hs1 : s.calls <+: s1.calls ∧ s1.priv.exceptActive = s.priv.exceptActive := by
            by_cases hp : s.priv.input = port
            · simp only [hp, if_true] at hc
              obtain ⟨h1, h2⟩ := ihD _ _ _ hc
              exact ⟨(List.prefix_append _ _).trans h1, h2⟩
            · simp only [hp, if_false] at hc
              obtain ⟨h1, h2⟩ := ihD _ _ _ hc
              exact ⟨(List.prefix_append _ _).trans h1, h2⟩
          exact ⟨hs1.1, hs1.2⟩
      · simp only [ha, Bool.not_false, if_true, Option.some.injEq] at h
        subst h
        exact ⟨List.prefix_refl _, rfl⟩

/-- A call of `pinos_port_deactivate` on a port that raises nothing is the plain call. -/
theorem pinos_port_deactivate_sync_quiet {W : Type} (ops : PortOps W) (sg : PortSignals W)
    (n : Nat) (port : Option PortRef) (s : Sys W)
    (h : sg.raises_deactivate s.world port = false) :
    pinos_port_deactivate_sync ops sg (n + 1) port s = some (pinos_port_deactivate ops port s) := by
  simp [pinos_port_deactivate_sync, h]

/-- A call of `pinos_port_deactivate` on a port that raises `deactivate`, with
`on_deactivate` as the one connected handler, runs `on_deactivate` inside the call, with
the port as emitter. -/
theorem pinos_port_deactivate_sync_raises {W : Type} (ops : PortOps W) (sg : PortSignals W)
    (n : Nat) (port : Option PortRef) (s : Sys W)
    (h : sg.raises_deactivate s.world port = true)
    (hconn : connected s port .deactivate = [SignalHandler.on_deactivate]) :
    pinos_port_deactivate_sync ops sg (n + 2) port s
      = (on_deactivate_sync ops sg n port (pinos_port_deactivate ops port s)).map
          (fun r => r.2) := by
  rw [pinos_port_deactivate_sync]
  simp only [h, if_true, hconn]
  rw [List.foldlM_cons, signal_handler_sync]
  cases on_deactivate_sync ops sg n port (pinos_port_deactivate ops port s) <;> rfl

/-- On an inactive link `on_activate` is one call of `pinos_port_activate` on the port
opposite to the emitter, with whatever that call delivers, followed by the setting of the
active flag. -/
theorem on_activate_sync_step {W : Type} (ops : PortOps W) (sg : PortSignals W) (n : Nat)
    (s : Sys W) (port peer : Option PortRef) (hact : s.priv.active = false)
    (hP : (port = s.priv.input ∧ peer = s.priv.output) ∨
      (port = s.priv.output ∧ peer = s.priv.input)) :
    on_activate_sync ops sg (n + 1) port s
      = (pinos_port_activate_sync ops sg n peer s).map
          (fun s1 => (true, { s1 with priv := { s1.priv with active := true } })) := by
  rw [on_activate_sync]
  simp only [hact, Bool.false_eq_true, if_false]
  rcases hP with ⟨h1, h2⟩ | ⟨h1, h2⟩
  · subst h1 h2
    simp
  · subst h1 h2
    by_cases hio : s.priv.input = s.priv.output
    · simp [hio]
    · simp [hio]

/-- On an active link `on_deactivate` is one call of `pinos_port_deactivate` on the port
opposite to the emitter, with whatever that call delivers, followed by the clearing of
the active flag. -/
theorem on_deactivate_sync_step {W : Type} (ops : PortOps W) (sg : PortSignals W) (n : Nat)
    (s : Sys W) (port peer : Option PortRef) (hact : s.priv.active = true)
    (hP : (port = s.priv.input ∧ peer = s.priv.output) ∨
      (port = s.priv.output ∧ peer = s.priv.input)) :
    on_deactivate_sync ops sg (n + 1) port s
      = (pinos_port_deactivate_sync ops sg n peer s).map
          (fun s1 => (true, { s1 with priv := { s1.priv with active := false } })) := by
  rw [on_deactivate_sync]
  simp only [hact, Bool.not_true, Bool.false_eq_true, if_false]
  rcases hP with ⟨h1, h2⟩ | ⟨h1, h2⟩
  · subst h1 h2
    simp
  · subst h1 h2
    by_cases hio : s.priv.input = s.priv.output
    · simp [hio]
    · simp [hio]

/-- Under synchronous delivery, whatever is delivered, `on_activate` returns TRUE when it
returns and leaves the link's private structure as the handler without delivery does:
the active flag set and nothing else changed. -/
theorem on_activate_sync_priv {W : Type} (ops : PortOps W) (sg : PortSignals W) (fuel : Nat)
    (port : Option PortRef) (s : Sys W) (r : Bool × Sys W)
    (h : on_activate_sync ops sg fuel port s = some r) :
    r.1 = true ∧ r.2.priv = (on_activate ops port s).2.priv := by
  rw [on_activate_priv]
  cases fuel with
  | zero => simp [on_activate_sync] at h
  | succ n =>
    have hinv := ((sync_inv ops sg (n + 1)).2.2.2.1 port s r h).2
    have hset := exceptActive_set _ _ true hinv
    rw [on_activate_sync] at h
    by_cases ha : s.priv.active = true
    · simp only [ha, if_true, Option.some.injEq] at h
      subst h
      refine ⟨rfl, ?_⟩
      obtain ⟨priv, world, calls⟩ := s
      obtain ⟨_, _, _, _, _, active, _, _, _, _⟩ := priv
      simp only at ha
      subst ha
      rfl
    · simp only [ha, if_false, Bool.false_eq_true] at h
      cases hc : (if s.priv.input = port then pinos_port_activate_sync ops sg n s.priv.output s
          else pinos_port_activate_sync ops sg n s.priv.input s) with
      | none => simp [hc] at h
      | some s1 =>
        simp only [hc, Option.map_some', Option.some.injEq] at h
        subst h
        exact ⟨rfl, hset⟩

/-- Under synchronous delivery, whatever is delivered, `on_deactivate` returns TRUE when
it returns and leaves the link's private structure as the handler without delivery does:
the active flag cleared and nothing else changed. -/
theorem on_deactivate_sync_priv {W : Type} (ops : PortOps W) (sg : PortSignals W) (fuel : Nat)
    (port : Option PortRef) (s : Sys W) (r : Bool × Sys W)
    (h : on_deactivate_sync ops sg fuel port s = some r) :
    r.1 = true ∧ r.2.priv = (on_deactivate ops port s).2.priv := by
  rw [on_deactivate_priv]
  cases fuel with
  | zero => simp [on_deactivate_sync] at h
  | succ n =>
    have hinv := ((sync_inv ops sg (n + 1)).2.2.2.2 port s r h).2
    have hset := exceptActive_set _ _ false hinv
    rw [on_deactivate_sync] at h
    by_cases ha : s.priv.active = true
    · simp only [ha, Bool.not_true, Bool.false_eq_true, if_false] at h
      cases hc : (if s.priv.input = port then pinos_port_deactivate_sync ops sg n s.priv.output s
          else pinos_port_deactivate_sync ops sg n s.priv.input s) with
      | none => simp [hc] at h
      | some s1 =>
        simp only [hc, Option.map_some', Option.some.injEq] at h
        subst h
        exact ⟨rfl, hset⟩
    · simp only [ha, Bool.not_false, if_true, Option.some.injEq] at h
      subst h
      refine ⟨rfl, ?_⟩
      obtain ⟨priv, world, calls⟩ := s
      obtain ⟨_, _, _, _, _, active, _, _, _, _⟩ := priv
      simp only [Bool.not_eq_true] at ha
      subst ha
      rfl

/-- C4: on a link whose active flag is false, handling an activate event from one of its
ports `port`, with `peer` the other one (the output for an event from the input, the
input for an event from the output), activates the peer, whatever `pinos_port_activate`
delivers back to the link before it returns. Whenever the handler returns, it returns
TRUE with the active flag true, and its first call was `pinos_port_activate` on the peer;
it returns as soon as that call does. It does return, with any fuel from 2 on, when the
peer raises nothing, and then that call is its only one; and with any fuel from 5 on when
the peer raises `activate` to the connected `on_activate` and `port` raises nothing
further, and then the nested handler has made one more call. -/
theorem on_activate_sync_activates_other_port {W : Type} (ops : PortOps W) (sg : PortSignals W)
    (s : Sys W) (port peer : Option PortRef) (hact : s.priv.active = false)
    (hP : (port = s.priv.input ∧ peer = s.priv.output) ∨
      (port = s.priv.output ∧ peer = s.priv.input)) :
    (∀ fuel r, on_activate_sync ops sg fuel port s = some r →
      r.1 = true ∧ r.2.priv = { s.priv with active := true } ∧
        (s.calls ++ [Call.port_activate peer]) <+: r.2.calls) ∧
    (∀ n s1, pinos_port_activate_sync ops sg n peer s = some s1 →
      on_activate_sync ops sg (n + 1) port s
        = some (true, { s1 with priv := { s1.priv with active := true } })) ∧
    (sg.raises_activate s.world peer = false →
      ∀ n, on_activate_sync ops sg (n + 2) port s
        = some (true,
            { priv := { s.priv with active := true },
              world := ops.activate s.world peer,
              calls := s.calls ++ [Call.port_activate peer] })) ∧
    (sg.raises_activate s.world peer = true →
      connected s peer .activate = [SignalHandler.on_activate] →
      sg.raises_activate (ops.activate s.world peer) port = false →
      ∀ n, on_activate_sync ops sg (n + 5) port s
        = some (true,
            { priv := { s.priv with active := true },
              world := ops.activate (ops.activate s.world peer) port,
              calls := s.calls ++ [Call.port_activate peer, Call.port_activate port] })) := by
  refine ⟨?_, ?_, ?_, ?_⟩
  · intro fuel r h
    have hp := on_activate_sync_priv ops sg fuel port s r h
    rw [on_activate_priv] at hp
    refine ⟨hp.1, hp.2, ?_⟩
    cases fuel with
    | zero => simp [on_activate_sync] at h
    | succ n =>
      rw [on_activate_sync_step ops sg n s port peer hact hP] at h
      cases hc : pinos_port_activate_sync ops sg n peer s with
      | none => simp [hc] at h
      | some s1 =>
        simp only [hc, Option.map_some', Option.some.injEq] at h
        subst h
        exact ((sync_inv ops sg n).1 peer s s1 hc).1
  · intro n s1 h
    rw [on_activate_sync_step ops sg n s port peer hact hP, h]
    rfl
  · intro hq n
    rw [on_activate_sync_step ops sg (n + 1) s port peer hact hP,
      pinos_port_activate_sync_quiet ops sg n peer s hq]
    rfl
  · intro hr hconn hq n
    have hP' : (peer = (pinos_port_activate ops peer s).priv.input ∧
          port = (pinos_port_activate ops peer s).priv.output) ∨
        (peer = (pinos_port_activate ops peer s).priv.output ∧
          port = (pinos_port_activate ops peer s).priv.input) := by
      rcases hP with ⟨h1, h2⟩ | ⟨h1, h2⟩
      · exact Or.inr ⟨h2, h1⟩
      · exact Or.inl ⟨h2, h1⟩
    rw [on_activate_sync_step ops sg (n + 4) s port peer hact hP,
      pinos_port_activate_sync_raises ops sg (n + 2) peer s hr hconn,
      on_activate_sync_step ops sg (n + 1) (pinos_port_activate ops peer s) peer port hact hP',
      pinos_port_activate_sync_quiet ops sg n port (pinos_port_activate ops peer s) hq]
    simp [pinos_port_activate]

/-- C4 on two links. On the link just created between the idle ports of `worldOutIn`, an
activate event from the input port (port 1) makes one call, on port 0. On
`outputActiveLink`, whose output port (port 0) is active and whose input port is
configured, an activate event from the output port makes the call on port 1, which raises
its own signal; the handler returns TRUE with the flag set. -/
theorem on_activate_sync_activates_other_port_witness :
    (on_activate_sync specOps specSignals 2 (some 1)
        (g_object_new specOps worldOutIn (some 0) (some 0) (some 1) none)).map
        (fun r => (r.1, r.2.priv.active, r.2.calls.drop 11))
      = some (true, true, [Call.port_activate (some 0)]) ∧
    specSignals.raises_activate outputActiveLink.world (some 1) = true ∧
    (on_activate_sync specOps specSignals 5 (some 0) outputActiveLink).map
        (fun r => (r.1, r.2.priv.active, r.2.calls.drop 11,
          r.2.world.ports.map (fun p => p.state)))
      = some (true, true, [Call.port_activate (some 1), Call.port_activate (some 0)],
          [PortState.Active, PortState.Active]) := by
  have h1 := (on_activate_sync_activates_other_port specOps specSignals
    (g_object_new specOps worldOutIn (some 0) (some 0) (some 1) none) (some 1) (some 0) rfl
    (Or.inl ⟨rfl, rfl⟩)).2.2.1 rfl 0
  have h2 := (on_activate_sync_activates_other_port specOps specSignals outputActiveLink
    (some 0) (some 1) rfl (Or.inr ⟨rfl, rfl⟩)).2.2.2 rfl rfl rfl 0
  refine ⟨?_, rfl, ?_⟩
  · rw [h1]; rfl
  · rw [h2]; rfl

/-- C5: on a link whose active flag is true, handling a deactivate event from one of its
ports `port`, with `peer` the other one, deactivates the peer, whatever
`pinos_port_deactivate` delivers back to the link before it returns. Whenever the handler
returns, it returns TRUE with the active flag false, and its first call was
`pinos_port_deactivate` on the peer; it returns as soon as that call does. It does return,
with any fuel from 2 on, when the peer raises nothing, and then that call is its only
one; and with any fuel from 5 on when the peer raises `deactivate` to the connected
`on_deactivate` and `port` raises nothing further. On a link whose active flag is
already false, the handler returns TRUE at once: no call, nothing changed. -/
theorem on_deactivate_sync_deactivates_other_port {W : Type} (ops : PortOps W)
    (sg : PortSignals W) (s : Sys W) (port peer : Option PortRef)
    (hP : (port = s.priv.input ∧ peer = s.priv.output) ∨
      (port = s.priv.output ∧ peer = s.priv.input)) :
    (s.priv.active = true →
      (∀ fuel r, on_deactivate_sync ops sg fuel port s = some r →
        r.1 = true ∧ r.2.priv = { s.priv with active := false } ∧
          (s.calls ++ [Call.port_deactivate peer]) <+: r.2.calls) ∧
      (∀ n s1, pinos_port_deactivate_sync ops sg n peer s = some s1 →
        on_deactivate_sync ops sg (n + 1) port s
          = some (true, { s1 with priv := { s1.priv with active := false } })) ∧
      (sg.raises_deactivate s.world peer = false →
        ∀ n, on_deactivate_sync ops sg (n + 2) port s
          = some (true,
              { priv := { s.priv with active := false },
                world := ops.deactivate s.world peer,
                calls := s.calls ++ [Call.port_deactivate peer] })) ∧
      (sg.raises_deactivate s.world peer = true →
        connected s peer .deactivate = [SignalHandler.on_deactivate] →
        sg.raises_deactivate (ops.deactivate s.world peer) port = false →
        ∀ n, on_deactivate_sync ops sg (n + 5) port s
          = some (true,
              { priv := { s.priv with active := false },
                world := ops.deactivate (ops.deactivate s.world peer) port,
                calls := s.calls ++ [Call.port_deactivate peer, Call.port_deactivate port] }))) ∧
    (s.priv.active = false → ∀ n, on_deactivate_sync ops sg (n + 1) port s = some (true, s)) := by
  refine ⟨fun hact => ⟨?_, ?_, ?_, ?_⟩, fun hin n => on_deactivate_sync_inactive ops sg n port s hin⟩
  · intro fuel r h
    have hp := on_deactivate_sync_priv ops sg fuel port s r h
    rw [on_deactivate_priv] at hp
    refine ⟨hp.1, hp.2, ?_⟩
    cases fuel with
    | zero => simp [on_deactivate_sync] at h
    | succ n =>
      rw [on_deactivate_sync_step ops sg n s port peer hact hP] at h
      cases hc : pinos_port_deactivate_sync ops sg n peer s with
      | none => simp [hc] at h
      | some s1 =>
        simp only [hc, Option.map_some', Option.some.injEq] at h
        subst h
        exact ((sync_inv ops sg n).2.1 peer s s1 hc).1
  · intro n s1 h
    rw [on_deactivate_sync_step ops sg n s port peer hact hP, h]
    rfl
  · intro hq n
    rw [on_deactivate_sync_step ops sg (n + 1) s port peer hact hP,
      pinos_port_deactivate_sync_quiet ops sg n peer s hq]
    rfl
  · intro hr hconn hq n
    have hP' : (peer = (pinos_port_deactivate ops peer s).priv.input ∧
          port = (pinos_port_deactivate ops peer s).priv.output) ∨
        (peer = (pinos_port_deactivate ops peer s).priv.output ∧
          port = (pinos_port_deactivate ops peer s).priv.input) := by
      rcases hP with ⟨h1, h2⟩ | ⟨h1, h2⟩
      · exact Or.inr ⟨h2, h1⟩
      · exact Or.inl ⟨h2, h1⟩
    rw [on_deactivate_sync_step ops sg (n + 4) s port peer hact hP,
      pinos_port_deactivate_sync_raises ops sg (n + 2) peer s hr hconn,
      on_deactivate_sync_step ops sg (n + 1) (pinos_port_deactivate ops peer s) peer port hact hP',
      pinos_port_deactivate_sync_quiet ops sg n port (pinos_port_deactivate ops peer s) hq]
    simp [pinos_port_deactivate]

/-- C5 on two links. On `activeReadyLinkInputDown`, an active link whose input port
(port 1) has just left the Active state, the deactivate event of port 1 makes the call on
port 0, which is Active and raises its own signal; the handler returns TRUE with the
flag cleared and both ports out of the Active state. On the inactive `readyLink` the
event changes nothing. -/
theorem on_deactivate_sync_deactivates_other_port_witness :
    (activeReadyLinkInputDown.priv.active = true ∧
      specSignals.raises_deactivate activeReadyLinkInputDown.world (some 0) = true) ∧
    (on_deactivate_sync specOps specSignals 5 (some 1) activeReadyLinkInputDown).map
        (fun r => (r.1, r.2.priv.active, r.2.calls.drop 13,
          r.2.world.ports.map (fun p => p.state)))
      = some (true, false, [Call.port_deactivate (some 0), Call.port_deactivate (some 1)],
          [PortState.Configured, PortState.Configured]) ∧
    on_deactivate_sync specOps specSignals 1 (some 1) readyLink = some (true, readyLink) := by
  have h := on_deactivate_sync_deactivates_other_port specOps specSignals
    activeReadyLinkInputDown (some 1) (some 0) (Or.inl ⟨rfl, rfl⟩)
  have h2 := (h.1 rfl).2.2.2 rfl rfl rfl 0
  have h3 := (on_deactivate_sync_deactivates_other_port specOps specSignals readyLink
    (some 1) (some 0) (Or.inl ⟨rfl, rfl⟩)).2 rfl 0
  refine ⟨⟨rfl, rfl⟩, ?_, h3⟩
  rw [h2]
  rfl

/-! ## Disposal of a constructed link -/

end Pinos
